import Mathlib

/-! # Screen sharing agent: control channel

A shallow embedding of the device-side control channel of the screen sharing agent
(`controller.cc`, `controller.h`, `socket_writer.cc`, `control_messages.h`).

Conventions of the embedding:

* The controller's fields are a record `Controller`; every member function is a pure function
  from the controller (and the values it reads from its collaborators) to the new controller and
  the list of collaborator calls it makes, in program order (`Effect`).
* `int32_t` values are `Int`.  Where the source does signed arithmetic on them that can leave
  the 32-bit range, the two's complement result is taken explicitly (`wrapInt32`).
* `std::string` is the list of its bytes, each byte a `Nat` below 256.
* Loops whose trip count is bounded by a value known on entry are written by recursion on that
  bound.
-/

namespace screensharing

/-! ## Constants of `android/input.h` and `android/keycodes.h` used by the controller -/

def AMOTION_EVENT_ACTION_DOWN : Int := 0
def AMOTION_EVENT_ACTION_UP : Int := 1
def AMOTION_EVENT_ACTION_MOVE : Int := 2
def AMOTION_EVENT_ACTION_POINTER_DOWN : Int := 5
def AMOTION_EVENT_ACTION_POINTER_UP : Int := 6
def AMOTION_EVENT_ACTION_HOVER_MOVE : Int := 7
def AMOTION_EVENT_ACTION_SCROLL : Int := 8
def AMOTION_EVENT_ACTION_BUTTON_PRESS : Int := 11
def AMOTION_EVENT_ACTION_BUTTON_RELEASE : Int := 12
def AMOTION_EVENT_ACTION_POINTER_INDEX_SHIFT : Nat := 8

def AINPUT_SOURCE_MOUSE : Int := 0x2002
def AINPUT_SOURCE_STYLUS : Int := 0x4002
def AINPUT_SOURCE_TOUCHSCREEN : Int := 0x1002

def AKEY_EVENT_ACTION_DOWN : Int := 0
def AKEY_EVENT_ACTION_UP : Int := 1
def AKEYCODE_WAKEUP : Int := 224

/-- The constant `KeyCharacterMap::VIRTUAL_KEYBOARD`. -/
def VIRTUAL_KEYBOARD : Int := -1

/-- The constant `DisplayStreamer::CURRENT_VIDEO_ORIENTATION` (display_streamer.h). -/
def CURRENT_VIDEO_ORIENTATION : Int := -1

/-- The constant `DisplayStreamer::CURRENT_DISPLAY_ORIENTATION` (display_streamer.h). -/
def CURRENT_DISPLAY_ORIENTATION : Int := -2

def PRIMARY_DISPLAY_ID : Int := 0

/-- The constant `MotionEventMessage::MAX_POINTERS` (control_messages.h). -/
def MAX_POINTERS : Nat := 2

/-- The constant `KeyEventMessage::ACTION_DOWN_AND_UP` (control_messages.h). -/
def ACTION_DOWN_AND_UP : Int := 8

def UTF8_MAX_BYTES_PER_CHARACTER : Int := 4

/-! ## Machine integers -/

/-- Membership in the range of `int32_t`. -/
def IsInt32 (z : Int) : Prop := -2 ^ 31 ≤ z ∧ z < 2 ^ 31

instance (z : Int) : Decidable (IsInt32 z) := by
  unfold IsInt32
  exact inferInstance

/-- Two's complement reduction of an integer to the range of `int32_t`. -/
def wrapInt32 (z : Int) : Int := (z + 2 ^ 31) % 2 ^ 32 - 2 ^ 31

/-- Conversion of a signed integer to `size_t` (64 bits), as in a mixed comparison. -/
def toSizeT (z : Int) : Nat := (z % 2 ^ 64).toNat

/-- The expression `a | (i << AMOTION_EVENT_ACTION_POINTER_INDEX_SHIFT)` for a loop index `i`. -/
def actionWithIndex (a : Int) (i : Nat) : Int :=
  Int.lor a (Int.ofNat (i <<< AMOTION_EVENT_ACTION_POINTER_INDEX_SHIFT))

/-! ## Geometry and display information -/

structure Size where
  width : Int
  height : Int
deriving DecidableEq, Repr

structure Point where
  x : Int
  y : Int
deriving DecidableEq, Repr

/-- The part of `DisplayInfo` read by the controller.  The results of its member
functions `NaturalSize()`, `IsValid()` and `IsOn()` are taken as fields. -/
structure DisplayInfo where
  NaturalSize : Size
  rotation : Int
  IsValid : Bool
  IsOn : Bool
deriving DecidableEq, Repr

/-- The function `AdjustedDisplayCoordinates` of controller.cc. -/
def AdjustedDisplayCoordinates (x y : Int) (display_info : DisplayInfo) : Point :=
  let size := display_info.NaturalSize
  if display_info.rotation = 1 then
    { x := y, y := wrapInt32 (size.width - x) }
  else if display_info.rotation = 2 then
    { x := wrapInt32 (size.width - x), y := wrapInt32 (size.height - y) }
  else if display_info.rotation = 3 then
    { x := wrapInt32 (size.height - y), y := x }
  else
    { x := x, y := y }

/-- The rotation that undoes rotation `r` (a quarter turn count). -/
def inverseRotation (r : Int) : Int := (4 - r) % 4

/-- The display size as seen after `r` quarter turns: width and height swap for odd `r`. -/
def rotatedSize (s : Size) (r : Int) : Size :=
  if r % 2 = 0 then s else { width := s.height, height := s.width }

/-! ## Messages -/

/-- An axis value (a `float` in the source), kept as an uninterpreted payload. -/
abbrev AxisValue := Int

/-- The structure `MotionEventMessage::Pointer`. -/
structure Pointer where
  x : Int
  y : Int
  pointer_id : Int
  axis_values : List (Int × AxisValue)
deriving DecidableEq, Repr

/-- The fields of `MotionEventMessage` read by `ProcessMotionEvent`. -/
structure MotionEventMessage where
  pointers : List Pointer
  action : Int
  display_id : Int
  action_button : Int
  button_state : Int
deriving DecidableEq, Repr

structure KeyEventMessage where
  action : Int
  keycode : Int
  meta_state : Int
deriving DecidableEq, Repr

/-- The type `Controller::DisplayEvent::Type`. -/
inductive DisplayEventType where
  | ADDED
  | REMOVED
deriving DecidableEq, Repr

/-- The structure `Controller::DisplayEvent`. -/
structure DisplayEvent where
  display_id : Int
  type : DisplayEventType
deriving DecidableEq, Repr

/-- The notifications the controller serializes to its output stream. -/
inductive Notification where
  | ClipboardChangedNotification (text : List Nat)
  | SupportedDeviceStatesNotification (text : List Nat)
  | DeviceStateNotification (device_state : Int)
  | DisplayAddedNotification (display_id : Int)
  | DisplayRemovedNotification (display_id : Int)
deriving DecidableEq, Repr

/-! ## Input events -/

/-- One element of the `MotionEvent.PointerCoords[]` array.  `ClearPointerCoords` resets it to
`PointerCoords.clear`; `SetPointerCoords`, `SetPointerPressure` and `SetAxisValue` set fields. -/
structure PointerCoords where
  x : Int
  y : Int
  pressure : Int
  axis_values : List (Int × AxisValue)
deriving DecidableEq, Repr

def PointerCoords.clear : PointerCoords := { x := 0, y := 0, pressure := 0, axis_values := [] }

/-- The scalar fields of `MotionEvent` set by the controller; a fresh event has them zero. -/
structure MotionEvent where
  display_id : Int
  action : Int
  button_state : Int
  event_time_millis : Int
  down_time_millis : Int
  source : Int
  action_button : Int
  pointer_count : Nat
deriving DecidableEq, Repr

structure KeyEvent where
  down_time_millis : Int
  event_time_millis : Int
  action : Int
  code : Int
  meta_state : Int
  source : Int
deriving DecidableEq, Repr

/-- A call made by the controller to one of its collaborators.  `InjectMotionEvent` records the
event together with the contents of the two pointer arrays at the moment of the call (the
arrays are shared Java objects, so the injected event sees the contents current at that time). -/
inductive Effect where
  | RecordTouchEvent
  | InjectMotionEvent (event : MotionEvent) (pointer_properties : List Int)
      (pointer_coordinates : List PointerCoords)
  | InjectKeyEvent (event : KeyEvent)
  | SetVideoOrientation (display_id orientation : Int)
  | GetText
  | SetText (text : List Nat)
  | AddClipboardListener
  | RemoveClipboardListener
  | Serialize (message : Notification)
  | GetSupportedStates
  | GetDeviceState
  | AddDeviceStateListener
  | RemoveDeviceStateListener
  | AddDisplayListener
  | RemoveDisplayListener
  | UiSettingsReset
  | InitializeSessionEnvironment
  | SetMaxVideoResolution (display_id : Int) (max_video_size : Size)
  | StartVideoStream (display_id : Int) (max_video_size : Size)
  | StopVideoStream (display_id : Int)
  | RequestState (state flags : Int)
  | SetReceiveTimeoutMillis (timeout_millis : Int)
deriving DecidableEq, Repr

/-! ## Controller state -/

/-- The fields of `Controller` (controller.h) that the modelled member functions use. -/
structure Controller where
  stopped : Bool
  pointer_properties_ : List Int
  pointer_coordinates_ : List PointerCoords
  motion_event_start_time_ : Int
  max_synced_clipboard_length_ : Int
  last_clipboard_text_ : List Nat
  clipboard_changed_ : Bool
  device_supports_multiple_states_ : Bool
  device_state_ : Int
  previous_device_state_ : Int
  pending_display_events_ : List DisplayEvent
deriving DecidableEq, Repr

/-- The controller as left by its constructor and the array set-up of `Initialize`. -/
def Controller.initial : Controller :=
  { stopped := false
    pointer_properties_ := List.replicate MAX_POINTERS 0
    pointer_coordinates_ := List.replicate MAX_POINTERS PointerCoords.clear
    motion_event_start_time_ := 0
    max_synced_clipboard_length_ := 0
    last_clipboard_text_ := []
    clipboard_changed_ := false
    device_supports_multiple_states_ := false
    device_state_ := -1
    previous_device_state_ := -1
    pending_display_events_ := [] }

/-- Applies `f` to element `i` of an array; an index outside the array changes nothing. -/
def modifyElement {α : Type} (array : List α) (i : Nat) (f : α → α) : List α :=
  match array[i]? with
  | some e => array.set i (f e)
  | none => array

/-! ## Motion events (`Controller::ProcessMotionEvent`) -/

/-- The static function `Controller::ProcessKeyboardEvent` of controller.cc; `now` is the reading
of the steady clock. -/
def ProcessKeyboardEvent (now : Int) (message : KeyEventMessage) : List Effect :=
  let action := message.action
  let event : KeyEvent :=
    { down_time_millis := now
      event_time_millis := now
      action := if action = ACTION_DOWN_AND_UP then AKEY_EVENT_ACTION_DOWN else action
      code := message.keycode
      meta_state := message.meta_state
      source := VIRTUAL_KEYBOARD }
  if action = ACTION_DOWN_AND_UP then
    [Effect.InjectKeyEvent event, Effect.InjectKeyEvent { event with action := AKEY_EVENT_ACTION_UP }]
  else
    [Effect.InjectKeyEvent event]

/-- The state of `ProcessMotionEvent` between its statements: the controller, the event under
construction and the collaborator calls made so far. -/
structure MotionState where
  controller : Controller
  event : MotionEvent
  effects : List Effect
deriving DecidableEq, Repr

/-- The call `InjectMotionEvent(jni_, event, InputEventInjectionSync::NONE)`. -/
def InjectMotionEvent (s : MotionState) : MotionState :=
  { s with effects := s.effects ++
      [Effect.InjectMotionEvent s.event s.controller.pointer_properties_
        s.controller.pointer_coordinates_] }

/-- Lines 310-323: the gesture start time and the down time of the event. -/
def updateStartTime (s : MotionState) (action now : Int) : MotionState :=
  if action ≠ AMOTION_EVENT_ACTION_HOVER_MOVE ∧ action ≠ AMOTION_EVENT_ACTION_SCROLL then
    let t1 := if action = AMOTION_EVENT_ACTION_DOWN then now else s.controller.motion_event_start_time_
    let t2 := if t1 = 0 then now else t1
    let t3 := if action = AMOTION_EVENT_ACTION_UP then 0 else t2
    { controller := { s.controller with motion_event_start_time_ := t3 }
      event := { s.event with down_time_millis := t2 }
      effects := s.effects ++ [Effect.RecordTouchEvent] }
  else
    s

/-- Lines 324-333: the source class of the event. -/
def eventSource (message : MotionEventMessage) : Int :=
  if message.action = AMOTION_EVENT_ACTION_HOVER_MOVE ∨ message.action_button ≠ 0 ∨
      message.button_state ≠ 0 then
    AINPUT_SOURCE_MOUSE
  else
    Int.lor AINPUT_SOURCE_STYLUS AINPUT_SOURCE_TOUCHSCREEN

/-- The pressure computed at lines 348-349 for the pointer stored at index `pointer_count`. -/
def pointerPressure (action : Int) (pointer_count : Nat) : Int :=
  if action = AMOTION_EVENT_ACTION_POINTER_UP ∧
      (pointer_count : Int) = action >>> AMOTION_EVENT_ACTION_POINTER_INDEX_SHIFT then 0 else 1

/-- The body of the loop at lines 340-355 for one pointer of the message. -/
def fillPointer (action : Int) (display_info : DisplayInfo) (s : MotionState) (pointer : Pointer) :
    MotionState :=
  let index := s.event.pointer_count
  let point := AdjustedDisplayCoordinates pointer.x pointer.y display_info
  let pressure := pointerPressure action index
  let coordinates : PointerCoords :=
    { x := point.x, y := point.y, pressure := pressure, axis_values := pointer.axis_values }
  { s with
    controller := { s.controller with
      pointer_properties_ := modifyElement s.controller.pointer_properties_ index
        (fun _ => pointer.pointer_id)
      pointer_coordinates_ := modifyElement s.controller.pointer_coordinates_ index
        (fun _ => coordinates) }
    event := { s.event with pointer_count := index + 1 } }

/-- The loop at lines 367-370; `n` bounds the number of iterations still possible. -/
def downLoop (size : Nat) : Nat → Nat → MotionState → MotionState
  | 0, i, s => { s with event := { s.event with pointer_count := i } }
  | n + 1, i, s =>
    let s := { s with event := { s.event with pointer_count := i } }
    if i < size then
      let s := InjectMotionEvent s
      downLoop size n (i + 1)
        { s with event := { s.event with
            action := actionWithIndex AMOTION_EVENT_ACTION_POINTER_DOWN i } }
    else
      s

/-- The loop at lines 381-386, started with `i = event.pointer_count`. -/
def upLoop : Nat → MotionState → MotionState
  | 0, s => s
  | i + 1, s =>
    if i > 1 then
      let s := { s with
        event := { s.event with action := actionWithIndex AMOTION_EVENT_ACTION_POINTER_UP i }
        controller := { s.controller with
          pointer_coordinates_ := modifyElement s.controller.pointer_coordinates_ i
            (fun coordinates => { coordinates with pressure := 0 }) } }
      let s := InjectMotionEvent s
      upLoop i { s with event := { s.event with pointer_count := i } }
    else
      s

/-- Lines 361-390: the expansion of the event into inject calls. -/
def injectEvents (message : MotionEventMessage) (s : MotionState) : MotionState :=
  let s :=
    if message.action = AMOTION_EVENT_ACTION_DOWN then
      if message.action_button ≠ 0 then
        let s := InjectMotionEvent s
        { s with event := { s.event with
            action := AMOTION_EVENT_ACTION_BUTTON_PRESS
            action_button := message.action_button } }
      else
        downLoop message.pointers.length message.pointers.length 1 s
    else if message.action = AMOTION_EVENT_ACTION_UP then
      if message.action_button ≠ 0 then
        let s := { s with event := { s.event with
            action := AMOTION_EVENT_ACTION_BUTTON_RELEASE
            action_button := message.action_button } }
        let s := InjectMotionEvent s
        { s with event := { s.event with
            action := AMOTION_EVENT_ACTION_UP
            action_button := 0 } }
      else
        let s := upLoop s.event.pointer_count s
        { s with event := { s.event with action := AMOTION_EVENT_ACTION_UP } }
    else
      s
  InjectMotionEvent s

/-- Lines 392-399: what follows the last inject call. -/
def afterInject (message : MotionEventMessage) (display_info : DisplayInfo) (key_now : Int)
    (s : MotionState) : MotionState :=
  if s.event.action = AMOTION_EVENT_ACTION_UP then
    let s := { s with effects := s.effects ++
      [Effect.SetVideoOrientation message.display_id CURRENT_VIDEO_ORIENTATION] }
    if !display_info.IsOn then
      let wakeup : KeyEventMessage :=
        { action := ACTION_DOWN_AND_UP, keycode := AKEYCODE_WAKEUP, meta_state := 0 }
      { s with effects := s.effects ++ ProcessKeyboardEvent key_now wakeup }
    else
      s
  else
    s

/-- The member function `Controller::ProcessMotionEvent`.  `now` is the value of `UptimeMillis()`,
`display_info` the result of `Agent::GetDisplayInfo(message.display_id())` and `key_now` the clock
reading taken by `ProcessKeyboardEvent` if it is called. -/
def ProcessMotionEvent (c : Controller) (now : Int) (display_info : DisplayInfo) (key_now : Int)
    (message : MotionEventMessage) : Controller × List Effect :=
  let event : MotionEvent :=
    { display_id := message.display_id
      action := message.action
      button_state := message.button_state
      event_time_millis := now
      down_time_millis := 0
      source := 0
      action_button := 0
      pointer_count := 0 }
  let s : MotionState := { controller := c, event := event, effects := [] }
  let s := updateStartTime s message.action now
  let s := { s with event := { s.event with source := eventSource message } }
  if !display_info.IsValid then
    (s.controller, s.effects)
  else
    let s := message.pointers.foldl (fillPointer message.action display_info) s
    let s := injectEvents message s
    let s := afterInject message display_info key_now s
    (s.controller, s.effects)

/-- The motion events injected by a list of collaborator calls, in order. -/
def motionInjects : List Effect → List MotionEvent
  | [] => []
  | Effect.InjectMotionEvent event _ _ :: rest => event :: motionInjects rest
  | _ :: rest => motionInjects rest

/-- The pairs (action, pointer count) of the injected motion events, in order. -/
def injectedTransitions (effects : List Effect) : List (Int × Nat) :=
  (motionInjects effects).map (fun event => (event.action, event.pointer_count))

/-- The triples (action, action button, pointer count) of the injected motion events. -/
def injectedButtons (effects : List Effect) : List (Int × Int × Nat) :=
  (motionInjects effects).map
    (fun event => (event.action, event.action_button, event.pointer_count))

/-- The state in which `ProcessMotionEvent` reaches line 361 on a valid display. -/
def stateBeforeInject (c : Controller) (now : Int) (display_info : DisplayInfo)
    (message : MotionEventMessage) : MotionState :=
  let event : MotionEvent :=
    { display_id := message.display_id
      action := message.action
      button_state := message.button_state
      event_time_millis := now
      down_time_millis := 0
      source := 0
      action_button := 0
      pointer_count := 0 }
  let s : MotionState := { controller := c, event := event, effects := [] }
  let s := updateStartTime s message.action now
  let s := { s with event := { s.event with source := eventSource message } }
  message.pointers.foldl (fillPointer message.action display_info) s

/-- The rotation transform in the words of the specification, on unbounded integers:
r = 0: (x, y); r = 1: (y, W - x); r = 2: (W - x, H - y); r = 3: (H - y, x). -/
def rotationSpec (W H r x y : Int) : Point :=
  if r = 0 then { x := x, y := y }
  else if r = 1 then { x := y, y := W - x }
  else if r = 2 then { x := W - x, y := H - y }
  else { x := H - y, y := x }

/-- The display against which the transform of `display_info` is undone: the inverse rotation,
and the natural size with width and height swapped when the rotation is a quarter turn. -/
def inverseDisplay (display_info : DisplayInfo) : DisplayInfo :=
  { display_info with
    NaturalSize := rotatedSize display_info.NaturalSize display_info.rotation
    rotation := inverseRotation display_info.rotation }

/-! ## Clipboard synchronization -/

/-- The function `Utf8CharacterCount` of controller.cc: the number of bytes of the string that
are not of the form 10xxxxxx. -/
def Utf8CharacterCount (str : List Nat) : Int :=
  str.foldl (fun count ch => if ch &&& 0xC0 ≠ 0x80 then count + 1 else count) 0

/-- The member function `Controller::OnPrimaryClipChanged`. -/
def OnPrimaryClipChanged (c : Controller) : Controller :=
  { c with clipboard_changed_ := true }

/-- The member function `Controller::SendClipboardChangedNotification`.  `clipboard` is the text
that `ClipboardManager::GetText` returns if it is called.  `Serialize` stands for serializing
the message to the output stream and flushing the stream. -/
def SendClipboardChangedNotification (c : Controller) (clipboard : List Nat) :
    Controller × List Effect :=
  let changed := c.clipboard_changed_
  let c := { c with clipboard_changed_ := false }
  if !changed then
    (c, [])
  else
    let text := clipboard
    if text.isEmpty ∨ text = c.last_clipboard_text_ then
      (c, [Effect.GetText])
    else
      let max_length := c.max_synced_clipboard_length_
      if text.length > toSizeT (wrapInt32 (max_length * UTF8_MAX_BYTES_PER_CHARACTER)) ∨
          Utf8CharacterCount text > max_length then
        (c, [Effect.GetText])
      else
        ({ c with last_clipboard_text_ := text },
          [Effect.GetText, Effect.Serialize (Notification.ClipboardChangedNotification text)])

/-- Consecutive calls of `SendClipboardChangedNotification` with no change callback in between;
the list gives the live clipboard text at each call. -/
def repeatSendClipboardChangedNotification :
    Controller → List (List Nat) → Controller × List Effect
  | c, [] => (c, [])
  | c, clipboard :: rest =>
    let r := SendClipboardChangedNotification c clipboard
    let r2 := repeatSendClipboardChangedNotification r.1 rest
    (r2.1, r.2 ++ r2.2)

/-- The notifications serialized by a list of collaborator calls, in order. -/
def written : List Effect → List Notification
  | [] => []
  | Effect.Serialize message :: rest => message :: written rest
  | _ :: rest => written rest

/-- The number of reads of the clipboard in a list of collaborator calls. -/
def clipboardReads : List Effect → Nat
  | [] => 0
  | Effect.GetText :: rest => clipboardReads rest + 1
  | _ :: rest => clipboardReads rest

/-- UTF-8 encoding of one Unicode code point (Unicode standard, table 3-6). -/
def utf8EncodeCodePoint (cp : Nat) : List Nat :=
  if cp < 0x80 then [cp]
  else if cp < 0x800 then [0xC0 + cp / 64, 0x80 + cp % 64]
  else if cp < 0x10000 then [0xE0 + cp / 4096, 0x80 + cp / 64 % 64, 0x80 + cp % 64]
  else [0xF0 + cp / 262144, 0x80 + cp / 4096 % 64, 0x80 + cp / 64 % 64, 0x80 + cp % 64]

/-- UTF-8 encoding of a sequence of code points. -/
def utf8Encode : List Nat → List Nat
  | [] => []
  | cp :: rest => utf8EncodeCodePoint cp ++ utf8Encode rest

/-- A Unicode scalar value: a code point up to U+10FFFF that is not a surrogate. -/
def IsScalarValue (cp : Nat) : Prop := cp < 0xD800 ∨ (0xE000 ≤ cp ∧ cp < 0x110000)

instance (cp : Nat) : Decidable (IsScalarValue cp) := by
  unfold IsScalarValue
  exact inferInstance

/-! ## Device state -/

/-- The member function `Controller::OnDeviceStateChanged`. -/
def OnDeviceStateChanged (c : Controller) (device_state : Int) : Controller × List Effect :=
  let previous_state := c.device_state_
  let c := { c with device_state_ := device_state }
  if previous_state ≠ device_state then
    (c, [Effect.SetVideoOrientation PRIMARY_DISPLAY_ID CURRENT_DISPLAY_ORIENTATION])
  else
    (c, [])

/-- The member function `Controller::SendDeviceStateNotification`. -/
def SendDeviceStateNotification (c : Controller) : Controller × List Effect :=
  let device_state := c.device_state_
  if device_state ≠ c.previous_device_state_ then
    ({ c with previous_device_state_ := device_state },
      [Effect.Serialize (Notification.DeviceStateNotification device_state)])
  else
    (c, [])

/-- A sequence of `OnDeviceStateChanged` callbacks, taken one after the other. -/
def deviceStateCallbacks : Controller → List Int → Controller × List Effect
  | c, [] => (c, [])
  | c, device_state :: rest =>
    let r := OnDeviceStateChanged c device_state
    let r2 := deviceStateCallbacks r.1 rest
    (r2.1, r.2 ++ r2.2)

/-! ## Display hotplug -/

/-- The member function `Controller::OnDisplayAdded`. -/
def OnDisplayAdded (c : Controller) (display_id : Int) : Controller :=
  { c with pending_display_events_ :=
      c.pending_display_events_ ++ [{ display_id := display_id, type := DisplayEventType.ADDED }] }

/-- The member function `Controller::OnDisplayRemoved`. -/
def OnDisplayRemoved (c : Controller) (display_id : Int) : Controller :=
  { c with pending_display_events_ :=
      c.pending_display_events_ ++
        [{ display_id := display_id, type := DisplayEventType.REMOVED }] }

/-- The loop at lines 592-605: one notification for each swapped-out event, in order. -/
def sendDisplayEvents : List DisplayEvent → List Effect
  | [] => []
  | event :: rest =>
    (match event.type with
      | DisplayEventType.ADDED =>
        [Effect.Serialize (Notification.DisplayAddedNotification event.display_id)]
      | DisplayEventType.REMOVED =>
        [Effect.Serialize (Notification.DisplayRemovedNotification event.display_id)]) ++
      sendDisplayEvents rest

/-- The member function `Controller::SendPendingDisplayEvents`. -/
def SendPendingDisplayEvents (c : Controller) : Controller × List Effect :=
  let display_events := c.pending_display_events_
  let c := { c with pending_display_events_ := [] }
  (c, sendDisplayEvents display_events)

/-- One step of a hotplug history: a display listener callback or a drain by the receive loop. -/
inductive HotplugOp where
  | added (display_id : Int)
  | removed (display_id : Int)
  | drain
deriving DecidableEq, Repr

/-- Runs a hotplug history step by step and collects what the drains write. -/
def runHotplug : Controller → List HotplugOp → Controller × List Effect
  | c, [] => (c, [])
  | c, HotplugOp.added display_id :: rest => runHotplug (OnDisplayAdded c display_id) rest
  | c, HotplugOp.removed display_id :: rest => runHotplug (OnDisplayRemoved c display_id) rest
  | c, HotplugOp.drain :: rest =>
    let r := SendPendingDisplayEvents c
    let r2 := runHotplug r.1 rest
    (r2.1, r.2 ++ r2.2)

/-- The notification that reports a display event. -/
def DisplayEvent.notification (event : DisplayEvent) : Notification :=
  match event.type with
  | DisplayEventType.ADDED => Notification.DisplayAddedNotification event.display_id
  | DisplayEventType.REMOVED => Notification.DisplayRemovedNotification event.display_id

/-- The display events reported by the callbacks of a hotplug history, in order. -/
def callbackEvents : List HotplugOp → List DisplayEvent
  | [] => []
  | HotplugOp.added display_id :: rest =>
    { display_id := display_id, type := DisplayEventType.ADDED } :: callbackEvents rest
  | HotplugOp.removed display_id :: rest =>
    { display_id := display_id, type := DisplayEventType.REMOVED } :: callbackEvents rest
  | HotplugOp.drain :: rest => callbackEvents rest

/-- A session with the dirty flag set and a negotiated max length of 2^30 characters. -/
def controllerWithLargeMaxLength : Controller :=
  { Controller.initial with
    clipboard_changed_ := true
    max_synced_clipboard_length_ := 1073741824 }

/-! ## Socket writer (`socket_writer.cc`) -/

/-- The type `SocketWriter::Result`. -/
inductive Result where
  | SUCCESS
  | SUCCESS_AFTER_BLOCKING
  | TIMEOUT
  | DISCONNECTED
deriving DecidableEq, Repr

/-- The values of `errno` that `SocketWriter::Write` tells apart. -/
inductive Errno where
  | EBADF
  | EPIPE
  | EINTR
  | EAGAIN
  | other
deriving DecidableEq, Repr

/-- What the transport does with one `write` / `writev` call: it takes the first `n` of the
offered bytes (never more than were offered), or fails with an error number. -/
inductive WriteOutcome where
  | accepted (n : Nat)
  | failed (errno : Errno)
deriving DecidableEq, Repr

/-- The behaviour of the environment during one iteration of the loop of `Write`: the outcome of
the write call and, used only after a would-block or interrupt, the return value of `poll` and
the time measured around it in microseconds. -/
structure Step where
  write : WriteOutcome
  poll_ret : Int
  poll_elapsed : Int
deriving DecidableEq, Repr

/-- How a run of `Write` against a finite script of environment behaviour ends: it returns a
result, it ends the process through `Log::Fatal`, or it is still in its loop when the script is
used up. -/
inductive WriteEnd where
  | returned (result : Result)
  | fatal
  | running
deriving DecidableEq, Repr

/-- One `write` / `writev` call: the bytes offered, the bytes the transport accepted and, when the
call is followed by a `poll` call (line 62), the timeout argument passed to `poll`. -/
structure WriteCall where
  offered : List Nat
  accepted : List Nat
  poll_timeout : Option Int := none
deriving DecidableEq, Repr

/-- The loop of `SocketWriter::Write`.  The buffers are the lists of bytes from the current
`buf1` / `buf2` pointers to the ends given by `size1` / `size2`. -/
def WriteLoop : List Step → List Nat → List Nat → Int → Bool → WriteEnd × List WriteCall
  | [], _, _, _, _ => (WriteEnd.running, [])
  | step :: script, buf1, buf2, timeout_micros, was_blocked =>
    let size1 := buf1.length
    let size2 := buf2.length
    let offered := if size2 = 0 then buf1 else buf1 ++ buf2
    match step.write with
    | WriteOutcome.failed errno =>
      let call : WriteCall := { offered := offered, accepted := [] }
      match errno with
      | Errno.EBADF => (WriteEnd.returned Result.DISCONNECTED, [call])
      | Errno.EPIPE => (WriteEnd.returned Result.DISCONNECTED, [call])
      | Errno.EINTR | Errno.EAGAIN =>
        let call : WriteCall := { call with poll_timeout := some timeout_micros }
        if step.poll_ret < 0 then
          (WriteEnd.fatal, [call])
        else if step.poll_ret = 0 then
          (WriteEnd.returned Result.TIMEOUT, [call])
        else
          let timeout_micros := wrapInt32 (timeout_micros - step.poll_elapsed)
          if timeout_micros ≤ 0 then
            (WriteEnd.returned Result.TIMEOUT, [call])
          else
            let r := WriteLoop script buf1 buf2 timeout_micros true
            (r.1, call :: r.2)
      | Errno.other => (WriteEnd.fatal, [call])
    | WriteOutcome.accepted n =>
      let written := min n (size1 + size2)
      let call : WriteCall := { offered := offered, accepted := offered.take written }
      if written = size1 + size2 then
        (WriteEnd.returned
          (if was_blocked then Result.SUCCESS_AFTER_BLOCKING else Result.SUCCESS), [call])
      else if written < size1 then
        if written = 0 then
          (WriteEnd.fatal, [call])
        else
          let r := WriteLoop script (buf1.drop written) buf2 timeout_micros was_blocked
          (r.1, call :: r.2)
      else
        let written := written - size1
        let r := WriteLoop script (buf2.drop written) [] timeout_micros was_blocked
        (r.1, call :: r.2)

/-- The member function `SocketWriter::Write`, run against a script of environment behaviour. -/
def Write (script : List Step) (buf1 buf2 : List Nat) (timeout_micros : Int) :
    WriteEnd × List WriteCall :=
  WriteLoop script buf1 buf2 timeout_micros false

/-- The bytes accepted by the transport over a sequence of write calls, concatenated. -/
def acceptedBytes : List WriteCall → List Nat
  | [] => []
  | call :: rest => call.accepted ++ acceptedBytes rest

/-- Every call of the sequence offers exactly `data` without the bytes accepted by the calls
before it, and accepts a leading part of what it offers. -/
def offersRemaining : List Nat → List WriteCall → Bool
  | _, [] => true
  | data, call :: rest =>
    call.offered == data && call.accepted == data.take call.accepted.length &&
      offersRemaining (data.drop call.accepted.length) rest

/-! ## Start and stop of the controller and of the clipboard synchronization -/

/-- The message `StartClipboardSyncMessage` (control_messages.h). -/
structure StartClipboardSyncMessage where
  max_synced_length : Int
  text : List Nat
deriving DecidableEq, Repr

/-- The member function `Controller::StartClipboardSync`. -/
def StartClipboardSync (c : Controller) (message : StartClipboardSyncMessage) :
    Controller × List Effect :=
  let s : Controller × List Effect :=
    if message.text ≠ c.last_clipboard_text_ then
      ({ c with last_clipboard_text_ := message.text }, [Effect.SetText message.text])
    else
      (c, [])
  let was_stopped := s.1.max_synced_clipboard_length_ = 0
  let c := { s.1 with max_synced_clipboard_length_ := message.max_synced_length }
  if was_stopped then
    (c, s.2 ++ [Effect.AddClipboardListener])
  else
    (c, s.2)

/-- The member function `Controller::StopClipboardSync`. -/
def StopClipboardSync (c : Controller) : Controller × List Effect :=
  if c.max_synced_clipboard_length_ ≠ 0 then
    ({ c with max_synced_clipboard_length_ := 0, last_clipboard_text_ := [] },
      [Effect.RemoveClipboardListener])
  else
    (c, [])

/-- The member function `Controller::Stop`.  The UI settings store is a collaborator, so
`ui_settings_.Reset()` is a collaborator call. -/
def Stop (c : Controller) : Controller × List Effect :=
  let effects :=
    if c.device_supports_multiple_states_ then [Effect.RemoveDeviceStateListener] else []
  ({ c with stopped := true }, effects ++ [Effect.UiSettingsReset])

/-- The bytes of the text "DeviceState{". -/
def deviceStateMarker : List Nat :=
  [0x44, 0x65, 0x76, 0x69, 0x63, 0x65, 0x53, 0x74, 0x61, 0x74, 0x65, 0x7B]

/-- The positions, counted from `i`, at which `pattern` occurs in `text`. -/
def occurrences (pattern : List Nat) : List Nat → Nat → List Nat
  | [], _ => []
  | ch :: rest, i =>
    (if (ch :: rest).take pattern.length = pattern then [i] else []) ++
      occurrences pattern rest (i + 1)

/-- The function `ContainsMultipleDeviceStates` of controller.cc: `find` (the first occurrence)
and `rfind` (the last occurrence) of "DeviceState{" differ. -/
def ContainsMultipleDeviceStates (states_text : List Nat) : Bool :=
  (occurrences deviceStateMarker states_text 0).head? ≠
    (occurrences deviceStateMarker states_text 0).getLast?

/-- The member function `Controller::WakeUpDevice`. -/
def WakeUpDevice (key_now : Int) : List Effect :=
  ProcessKeyboardEvent key_now
    { action := ACTION_DOWN_AND_UP, keycode := AKEYCODE_WAKEUP, meta_state := 0 }

/-- The member function `Controller::Initialize`.  `start_video_stream` tells whether
`Agent::flags()` has `START_VIDEO_STREAM`, `states_text` is the result of
`DeviceStateManager::GetSupportedStates()` and `device_state` that of
`DeviceStateManager::GetDeviceState`. -/
def Initialize (c : Controller) (start_video_stream : Bool) (key_now : Int)
    (states_text : List Nat) (device_state : Int) : Controller × List Effect :=
  let c := { c with
    pointer_properties_ := List.replicate MAX_POINTERS 0
    pointer_coordinates_ := List.replicate MAX_POINTERS PointerCoords.clear }
  let wake := if start_video_stream then WakeUpDevice key_now else []
  let s : Controller × List Effect :=
    if ContainsMultipleDeviceStates states_text then
      ({ c with device_supports_multiple_states_ := true, device_state_ := device_state },
        [Effect.Serialize (Notification.SupportedDeviceStatesNotification states_text),
          Effect.AddDeviceStateListener, Effect.GetDeviceState])
    else
      (c, [])
  (s.1, wake ++ [Effect.GetSupportedStates] ++ s.2 ++
    [Effect.AddDisplayListener, Effect.InitializeSessionEnvironment])

/-- The listeners that the controller registers with its collaborators. -/
inductive Listener where
  | deviceState
  | display
  | clipboard
deriving DecidableEq, Repr

/-- Whether a listener is registered after a sequence of collaborator calls, given whether it
was registered before: an addition registers it, a removal unregisters it. -/
def isRegistered (listener : Listener) : List Effect → Bool → Bool
  | [], registered => registered
  | effect :: rest, registered =>
    match listener, effect with
    | Listener.deviceState, Effect.AddDeviceStateListener => isRegistered listener rest true
    | Listener.deviceState, Effect.RemoveDeviceStateListener => isRegistered listener rest false
    | Listener.display, Effect.AddDisplayListener => isRegistered listener rest true
    | Listener.display, Effect.RemoveDisplayListener => isRegistered listener rest false
    | Listener.clipboard, Effect.AddClipboardListener => isRegistered listener rest true
    | Listener.clipboard, Effect.RemoveClipboardListener => isRegistered listener rest false
    | _, _ => isRegistered listener rest registered

/-- A session in which the clipboard synchronization is off (max length 0) while the last-known
text is "x", as left by `StartClipboardSync` with max length 0 and text "x". -/
def controllerWithTextWhileStopped : Controller :=
  (StartClipboardSync Controller.initial { max_synced_length := 0, text := [0x78] }).1

/-- The collaborator calls of a session on a foldable device that is initialized, starts the
clipboard synchronization and is then stopped. -/
def stoppedSessionCalls : List Effect :=
  let r1 := Initialize Controller.initial false 0
    (deviceStateMarker ++ [0x7D] ++ deviceStateMarker ++ [0x7D]) 1
  let r2 := StartClipboardSync r1.1 { max_synced_length := 100, text := [0x78] }
  let r3 := Stop r2.1
  r1.2 ++ r2.2 ++ r3.2

/-- The gesture start time in force while a motion message with an action other than hover-move
and scroll is processed: the current time on a DOWN or when no gesture was active, else the
value kept by the controller. -/
def gestureStart (c : Controller) (now : Int) (message : MotionEventMessage) : Int :=
  if message.action = AMOTION_EVENT_ACTION_DOWN ∨ c.motion_event_start_time_ = 0 then now
  else c.motion_event_start_time_

/-- The key events of the synthetic wake-up: WAKEUP down, then WAKEUP up. -/
def wakeUpKeyEvents (key_now : Int) : List Effect :=
  [Effect.InjectKeyEvent
    { down_time_millis := key_now, event_time_millis := key_now,
      action := AKEY_EVENT_ACTION_DOWN, code := AKEYCODE_WAKEUP, meta_state := 0,
      source := VIRTUAL_KEYBOARD },
   Effect.InjectKeyEvent
    { down_time_millis := key_now, event_time_millis := key_now,
      action := AKEY_EVENT_ACTION_UP, code := AKEYCODE_WAKEUP, meta_state := 0,
      source := VIRTUAL_KEYBOARD }]

/-- The last collaborator call of a sequence is a motion inject call. -/
def endsWithMotionInject (effects : List Effect) : Bool :=
  match effects.getLast? with
  | some (Effect.InjectMotionEvent _ _ _) => true
  | _ => false

/-- The event under construction and all motion events injected so far carry the source class
`source` and the down time `down_time`, and the controller keeps the start time `start`. -/
def Stamped (source down_time start : Int) (s : MotionState) : Prop :=
  s.event.source = source ∧ s.event.down_time_millis = down_time ∧
  s.controller.motion_event_start_time_ = start ∧
  ∀ e ∈ motionInjects s.effects, e.source = source ∧ e.down_time_millis = down_time

/-- A blocked phase of `Write` that starts with the timeout budget `remaining`: every step is a
would-block or interrupt outcome followed by a readiness wait in which `poll` does not fail,
whose measured duration is not negative and fits an `int`, and in which `poll` reports a
timeout (returns 0) only after a wait of at least the budget left at that point. -/
def blockedThenReady : Int → List Step → Bool
  | _, [] => true
  | remaining, step :: rest =>
    (step.write == WriteOutcome.failed Errno.EINTR ||
      step.write == WriteOutcome.failed Errno.EAGAIN) &&
    decide (0 ≤ step.poll_ret) &&
    (step.poll_ret != 0 || decide (remaining ≤ step.poll_elapsed)) &&
    decide (0 ≤ step.poll_elapsed) && decide (step.poll_elapsed < 2 ^ 31) &&
    blockedThenReady (remaining - step.poll_elapsed) rest

/-- The contract of `poll(2)` for its timeout argument: the argument is a number of
milliseconds, and a call returns after at most that long (a negative argument means no limit).
`elapsed_micros` is the duration of the call in microseconds. -/
def pollMayWait (timeout elapsed_micros : Int) : Bool :=
  decide (timeout < 0) || decide (elapsed_micros ≤ timeout * 1000)

/-- The sum of the measured durations of the readiness waits of a blocked phase. -/
def cumulativeWait (blocks : List Step) : Int :=
  (blocks.map (fun step => step.poll_elapsed)).sum

/-! ## Command handlers without session state and the operations of the controller -/

structure SetDeviceOrientationMessage where
  orientation : Int
deriving DecidableEq, Repr

structure SetMaxVideoResolutionMessage where
  display_id : Int
  max_video_size : Size
deriving DecidableEq, Repr

structure StartVideoStreamMessage where
  display_id : Int
  max_video_size : Size
deriving DecidableEq, Repr

structure StopVideoStreamMessage where
  display_id : Int
deriving DecidableEq, Repr

structure RequestDeviceStateMessage where
  state : Int
deriving DecidableEq, Repr

/-- The function `CheckVideoSize` of controller.cc. -/
def CheckVideoSize (video_resolution : Size) : Bool :=
  decide (video_resolution.width > 0) && decide (video_resolution.height > 0)

/-- The static member function `Controller::ProcessSetDeviceOrientation`. -/
def ProcessSetDeviceOrientation (message : SetDeviceOrientationMessage) : List Effect :=
  let orientation := message.orientation
  if orientation < 0 ∨ orientation ≥ 4 then
    []
  else
    [Effect.SetVideoOrientation PRIMARY_DISPLAY_ID orientation]

/-- The static member function `Controller::ProcessSetMaxVideoResolution`. -/
def ProcessSetMaxVideoResolution (message : SetMaxVideoResolutionMessage) : List Effect :=
  if CheckVideoSize message.max_video_size then
    [Effect.SetMaxVideoResolution message.display_id message.max_video_size]
  else
    []

/-- The static member function `Controller::StopVideoStream`. -/
def StopVideoStream (message : StopVideoStreamMessage) : List Effect :=
  [Effect.StopVideoStream message.display_id]

/-- The static member function `Controller::StartVideoStream`. -/
def StartVideoStream (key_now : Int) (message : StartVideoStreamMessage) : List Effect :=
  if CheckVideoSize message.max_video_size then
    Effect.StartVideoStream message.display_id message.max_video_size :: WakeUpDevice key_now
  else
    []

/-- The member function `Controller::RequestDeviceState`. -/
def RequestDeviceState (message : RequestDeviceStateMessage) : List Effect :=
  [Effect.RequestState message.state 0]

/-- A call of a member function of the controller after `Initialize`, with the values it
receives from its caller and reads from its collaborators.  The handlers for text input, display
configuration requests and UI settings are not among them; they assign no field of the
controller. -/
inductive ControllerOp where
  | ProcessMotionEvent (now : Int) (display_info : DisplayInfo) (key_now : Int)
      (message : MotionEventMessage)
  | ProcessKeyboardEvent (now : Int) (message : KeyEventMessage)
  | ProcessSetDeviceOrientation (message : SetDeviceOrientationMessage)
  | ProcessSetMaxVideoResolution (message : SetMaxVideoResolutionMessage)
  | StartVideoStream (key_now : Int) (message : StartVideoStreamMessage)
  | StopVideoStream (message : StopVideoStreamMessage)
  | StartClipboardSync (message : StartClipboardSyncMessage)
  | StopClipboardSync
  | OnPrimaryClipChanged
  | SendClipboardChangedNotification (clipboard : List Nat)
  | RequestDeviceState (message : RequestDeviceStateMessage)
  | OnDeviceStateChanged (device_state : Int)
  | SendDeviceStateNotification
  | OnDisplayAdded (display_id : Int)
  | OnDisplayRemoved (display_id : Int)
  | OnDisplayChanged (display_id : Int)
  | SendPendingDisplayEvents
  | Stop
deriving DecidableEq, Repr

/-- The effect of one call on the controller and the collaborator calls it makes. -/
def applyOp (c : Controller) : ControllerOp → Controller × List Effect
  | ControllerOp.ProcessMotionEvent now display_info key_now message =>
    ProcessMotionEvent c now display_info key_now message
  | ControllerOp.ProcessKeyboardEvent now message => (c, ProcessKeyboardEvent now message)
  | ControllerOp.ProcessSetDeviceOrientation message => (c, ProcessSetDeviceOrientation message)
  | ControllerOp.ProcessSetMaxVideoResolution message =>
    (c, ProcessSetMaxVideoResolution message)
  | ControllerOp.StartVideoStream key_now message => (c, StartVideoStream key_now message)
  | ControllerOp.StopVideoStream message => (c, StopVideoStream message)
  | ControllerOp.StartClipboardSync message => StartClipboardSync c message
  | ControllerOp.StopClipboardSync => StopClipboardSync c
  | ControllerOp.OnPrimaryClipChanged => (OnPrimaryClipChanged c, [])
  | ControllerOp.SendClipboardChangedNotification clipboard =>
    SendClipboardChangedNotification c clipboard
  | ControllerOp.RequestDeviceState message => (c, RequestDeviceState message)
  | ControllerOp.OnDeviceStateChanged device_state => OnDeviceStateChanged c device_state
  | ControllerOp.SendDeviceStateNotification => SendDeviceStateNotification c
  | ControllerOp.OnDisplayAdded display_id => (OnDisplayAdded c display_id, [])
  | ControllerOp.OnDisplayRemoved display_id => (OnDisplayRemoved c display_id, [])
  | ControllerOp.OnDisplayChanged _ => (c, [])
  | ControllerOp.SendPendingDisplayEvents => SendPendingDisplayEvents c
  | ControllerOp.Stop => Stop c

/-- A sequence of calls, one after the other. -/
def runOps : Controller → List ControllerOp → Controller × List Effect
  | c, [] => (c, [])
  | c, op :: rest =>
    let r := applyOp c op
    let r2 := runOps r.1 rest
    (r2.1, r.2 ++ r2.2)

/-- The controller without the fields that `ProcessMotionEvent` writes: the pointer arrays and
the gesture start time. -/
def sessionPart (c : Controller) : Controller :=
  { c with pointer_properties_ := [], pointer_coordinates_ := [], motion_event_start_time_ := 0 }

/-! ## Receive loop (`Controller::Run`) -/

def SOCKET_RECEIVE_TIMEOUT_MILLIS : Int := 250

/-- The outcome of a read from the input stream: a value, or one of the exceptions `IoTimeout`,
`EndOfFile` and `IoException`. -/
inductive ReadResult (α : Type) where
  | ok (value : α)
  | IoTimeout
  | EndOfFile
  | IoException

/-- The input side of the control socket as `Run` uses it: `Base128InputStream::ReadInt32` and
`ControlMessage::Deserialize(type, stream)`, both functions of the bytes that arrive and giving
the bytes left unread.  `M` is the type of the decoded messages. -/
structure InputStream (M : Type) where
  ReadInt32 : List Nat → ReadResult (Int × List Nat)
  Deserialize : Int → List Nat → ReadResult (M × List Nat)

/-- The ways in which the loop of `Run` ends: the end of the command stream, or the end of the
process. -/
inductive LoopEnd where
  | EndOfFile
  | Fatal
deriving DecidableEq, Repr

/-- The outcome of one iteration of the loop of `Run`: the controller, the collaborator calls of
the loop thread, those made by other threads while the loop waits for a message, the input left
unread, the message passed to `ProcessMessage` if any, and whether the loop ends. -/
structure Iteration (M : Type) where
  controller : Controller
  effects : List Effect
  foreign_effects : List Effect
  input : List Nat
  dispatched : Option M
  ended : Option LoopEnd

/-- Lines 202-212 of `Run`: the notifications sent at the start of an iteration.  `clipboard` is
the live clipboard text. -/
def SendDueNotifications (c : Controller) (clipboard : List Nat) : Controller × List Effect :=
  if !c.stopped then
    let r1 :=
      if c.max_synced_clipboard_length_ ≠ 0 then SendClipboardChangedNotification c clipboard
      else (c, [])
    let r2 :=
      if r1.1.device_supports_multiple_states_ then SendDeviceStateNotification r1.1
      else (r1.1, [])
    let r3 := SendPendingDisplayEvents r2.1
    (r3.1, r1.2 ++ r2.2 ++ r3.2)
  else
    (c, [])

/-- One iteration of the loop of `Controller::Run` (lines 200-226).  `process` stands for
`ProcessMessage`; `foreign` are the calls that other threads make on the controller (callbacks,
`Stop`) while the loop waits in `ReadInt32`; `input` are the bytes that arrive. -/
def RunIteration {M : Type} (stream : InputStream M)
    (process : Controller → M → Controller × List Effect) (c : Controller)
    (clipboard : List Nat) (foreign : List ControllerOp) (input : List Nat) : Iteration M :=
  let socket_timeout := SOCKET_RECEIVE_TIMEOUT_MILLIS
  let r := SendDueNotifications c clipboard
  let effects := r.2 ++ [Effect.SetReceiveTimeoutMillis socket_timeout]
  let f := runOps r.1 foreign
  match stream.ReadInt32 input with
  | ReadResult.IoTimeout =>
    { controller := f.1, effects := effects, foreign_effects := f.2, input := input,
      dispatched := none, ended := none }
  | ReadResult.EndOfFile =>
    { controller := f.1, effects := effects, foreign_effects := f.2, input := input,
      dispatched := none, ended := some LoopEnd.EndOfFile }
  | ReadResult.IoException =>
    { controller := f.1, effects := effects, foreign_effects := f.2, input := input,
      dispatched := none, ended := some LoopEnd.Fatal }
  | ReadResult.ok (message_type, rest) =>
    let effects := effects ++ [Effect.SetReceiveTimeoutMillis 0]
    match stream.Deserialize message_type rest with
    | ReadResult.ok (message, rest) =>
      if !f.1.stopped then
        let p := process f.1 message
        { controller := p.1, effects := effects ++ p.2, foreign_effects := f.2, input := rest,
          dispatched := some message, ended := none }
      else
        { controller := f.1, effects := effects, foreign_effects := f.2, input := rest,
          dispatched := none, ended := none }
    | ReadResult.EndOfFile =>
      { controller := f.1, effects := effects, foreign_effects := f.2, input := rest,
        dispatched := none, ended := some LoopEnd.EndOfFile }
    | ReadResult.IoTimeout | ReadResult.IoException =>
      { controller := f.1, effects := effects, foreign_effects := f.2, input := rest,
        dispatched := none, ended := some LoopEnd.Fatal }

/-- An input stream for two-byte messages: a tag byte followed by one payload byte. -/
def twoByteStream : InputStream Nat :=
  { ReadInt32 := fun input =>
      match input with
      | [] => ReadResult.IoTimeout
      | tag :: rest => ReadResult.ok ((tag : Int), rest)
    Deserialize := fun _ input =>
      match input with
      | [] => ReadResult.EndOfFile
      | payload :: rest => ReadResult.ok (payload, rest) }

/-- The device states carried by the posture notifications among a list of collaborator calls,
in order. -/
def postureNotifications : List Effect → List Int
  | [] => []
  | Effect.Serialize (Notification.DeviceStateNotification device_state) :: rest =>
    device_state :: postureNotifications rest
  | _ :: rest => postureNotifications rest

/-! ## The length check of the clipboard notification -/

/-- The variant of `SendClipboardChangedNotification` with which the two-stage length check of
line 506 is compared: the same function, except that a text is too long exactly when its code
point count exceeds the negotiated max length (the byte-length test is left out). -/
def SendClipboardChangedNotificationSingleTest (c : Controller) (clipboard : List Nat) :
    Controller × List Effect :=
  let changed := c.clipboard_changed_
  let c := { c with clipboard_changed_ := false }
  if !changed then
    (c, [])
  else
    let text := clipboard
    if text.isEmpty ∨ text = c.last_clipboard_text_ then
      (c, [Effect.GetText])
    else
      let max_length := c.max_synced_clipboard_length_
      if Utf8CharacterCount text > max_length then
        (c, [Effect.GetText])
      else
        ({ c with last_clipboard_text_ := text },
          [Effect.GetText, Effect.Serialize (Notification.ClipboardChangedNotification text)])

/-- Whether a byte is a UTF-8 continuation byte, 10xxxxxx in binary: 0x80 to 0xBF. -/
def IsContinuationByte (ch : Nat) : Bool := 0x80 ≤ ch && ch ≤ 0xBF

/-! ## Subscriptions of the clipboard listener -/

/-- The number of `AddClipboardListener` calls minus the number of `RemoveClipboardListener`
calls in a list of collaborator calls. -/
def clipboardSubscriptions : List Effect → Int
  | [] => 0
  | Effect.AddClipboardListener :: rest => clipboardSubscriptions rest + 1
  | Effect.RemoveClipboardListener :: rest => clipboardSubscriptions rest - 1
  | _ :: rest => clipboardSubscriptions rest

/-- A `StartClipboardSync` command with a non-zero max length, or a `StopClipboardSync`
command. -/
def IsClipboardSyncCommandWithLength : ControllerOp → Bool
  | ControllerOp.StartClipboardSync message => message.max_synced_length ≠ 0
  | ControllerOp.StopClipboardSync => true
  | _ => false

/-- The number of subscriptions that the negotiated max length stands for: one if it is
non-zero, none if it is zero. -/
def expectedSubscriptions (c : Controller) : Int :=
  if c.max_synced_clipboard_length_ ≠ 0 then 1 else 0

/-- A DOWN message without action button and without pointers. -/
def downWithoutPointers : MotionEventMessage :=
  { pointers := [], action := AMOTION_EVENT_ACTION_DOWN, display_id := 0, action_button := 0,
    button_state := 0 }

/-! ## Facts about the motion event model -/

theorem motionInjects_append (a b : List Effect) :
    motionInjects (a ++ b) = motionInjects a ++ motionInjects b := by
  induction a with
  | nil => rfl
  | cons e rest ih => cases e <;> simp [motionInjects, ih]

theorem injectedTransitions_append (a b : List Effect) :
    injectedTransitions (a ++ b) = injectedTransitions a ++ injectedTransitions b := by
  simp [injectedTransitions, motionInjects_append]

theorem injectedButtons_append (a b : List Effect) :
    injectedButtons (a ++ b) = injectedButtons a ++ injectedButtons b := by
  simp [injectedButtons, motionInjects_append]

theorem motionInjects_ProcessKeyboardEvent (now : Int) (message : KeyEventMessage) :
    motionInjects (ProcessKeyboardEvent now message) = [] := by
  simp only [ProcessKeyboardEvent]
  split <;> rfl

/-- The pointer loop changes neither the calls made so far nor any scalar field of the event
other than the pointer count, which grows by the number of pointers. -/
theorem foldl_fillPointer (action : Int) (display_info : DisplayInfo) (pointers : List Pointer)
    (s : MotionState) :
    (pointers.foldl (fillPointer action display_info) s).effects = s.effects ∧
    (pointers.foldl (fillPointer action display_info) s).event =
      { s.event with pointer_count := s.event.pointer_count + pointers.length } ∧
    (pointers.foldl (fillPointer action display_info) s).controller.motion_event_start_time_ =
      s.controller.motion_event_start_time_ := by
  induction pointers generalizing s with
  | nil => exact ⟨rfl, rfl, rfl⟩
  | cons p rest ih =>
    obtain ⟨h1, h2, h3⟩ := ih (fillPointer action display_info s p)
    simp only [List.foldl_cons, List.length_cons]
    refine ⟨h1, ?_, h3⟩
    rw [h2]
    simp [fillPointer, Nat.add_assoc, Nat.add_comm 1]

theorem updateStartTime_event (s : MotionState) (action now : Int) :
    (updateStartTime s action now).event.action = s.event.action ∧
    (updateStartTime s action now).event.action_button = s.event.action_button ∧
    (updateStartTime s action now).event.pointer_count = s.event.pointer_count ∧
    motionInjects (updateStartTime s action now).effects = motionInjects s.effects := by
  unfold updateStartTime
  split
  · simp [motionInjects_append, motionInjects]
  · simp

/-- The calls of the pointer-down expansion: the pending event with pointer count `i`, then one
`POINTER_DOWN` transition for every further pointer index. -/
theorem downLoop_transitions (size : Nat) :
    ∀ (n i : Nat) (s : MotionState), i ≤ size → size ≤ n + i →
      injectedTransitions (InjectMotionEvent (downLoop size n i s)).effects =
        injectedTransitions s.effects ++
          (s.event.action, i) ::
            (List.range' i (size - i)).map
              (fun j => (actionWithIndex AMOTION_EVENT_ACTION_POINTER_DOWN j, j + 1)) := by
  intro n
  induction n with
  | zero =>
    intro i s h1 h2
    have hi : size - i = 0 := by omega
    simp [downLoop, InjectMotionEvent, injectedTransitions, motionInjects_append, motionInjects, hi]
  | succ n ih =>
    intro i s h1 h2
    by_cases hlt : i < size
    · have hstep : size - i = (size - (i + 1)) + 1 := by omega
      rw [downLoop]
      simp only [hlt, if_true]
      rw [ih (i + 1) _ (by omega) (by omega), hstep, List.range'_succ]
      simp [InjectMotionEvent, injectedTransitions, motionInjects_append, motionInjects]
    · have hi : size - i = 0 := by omega
      rw [downLoop]
      simp [hlt, InjectMotionEvent, injectedTransitions, motionInjects_append, motionInjects, hi]

theorem motionInjects_afterInject (message : MotionEventMessage) (display_info : DisplayInfo)
    (key_now : Int) (s : MotionState) :
    motionInjects (afterInject message display_info key_now s).effects =
      motionInjects s.effects := by
  simp only [afterInject]
  split
  · split
    · simp [motionInjects_append, motionInjects, motionInjects_ProcessKeyboardEvent]
    · simp [motionInjects_append, motionInjects]
  · rfl

theorem ProcessMotionEvent_valid (c : Controller) (now : Int) (display_info : DisplayInfo)
    (key_now : Int) (message : MotionEventMessage) (hvalid : display_info.IsValid = true) :
    ProcessMotionEvent c now display_info key_now message =
      ((afterInject message display_info key_now
          (injectEvents message (stateBeforeInject c now display_info message))).controller,
       (afterInject message display_info key_now
          (injectEvents message (stateBeforeInject c now display_info message))).effects) := by
  simp [ProcessMotionEvent, stateBeforeInject, hvalid]

theorem stateBeforeInject_event (c : Controller) (now : Int) (display_info : DisplayInfo)
    (message : MotionEventMessage) :
    (stateBeforeInject c now display_info message).event.action = message.action ∧
    (stateBeforeInject c now display_info message).event.action_button = 0 ∧
    (stateBeforeInject c now display_info message).event.pointer_count =
      message.pointers.length ∧
    motionInjects (stateBeforeInject c now display_info message).effects = [] := by
  simp only [stateBeforeInject]
  generalize hs0 : ({ controller := c, event := _, effects := [] } : MotionState) = s0
  obtain ⟨u1, u2, u3, u4⟩ := updateStartTime_event s0 message.action now
  have h0 : s0.event.action = message.action ∧ s0.event.action_button = 0 ∧
      s0.event.pointer_count = 0 ∧ s0.effects = [] := by
    subst hs0
    exact ⟨rfl, rfl, rfl, rfl⟩
  obtain ⟨f1, f2, -⟩ := foldl_fillPointer message.action display_info message.pointers
    { updateStartTime s0 message.action now with
      event := { (updateStartTime s0 message.action now).event with
        source := eventSource message } }
  rw [f1, f2]
  simp only [u1, u2, u3, u4, h0.1, h0.2.1, h0.2.2.1, h0.2.2.2]
  simp [motionInjects]

/-- The pressure computed in the pointer loop is 0 only for the action `POINTER_UP` without
index bits, and then only for the pointer stored at index 0. -/
theorem pointerPressure_eq_zero_iff (action : Int) (pointer_count : Nat) :
    pointerPressure action pointer_count = 0 ↔
      action = AMOTION_EVENT_ACTION_POINTER_UP ∧ pointer_count = 0 := by
  unfold pointerPressure
  by_cases h : action = AMOTION_EVENT_ACTION_POINTER_UP
  · subst h
    have hshift : AMOTION_EVENT_ACTION_POINTER_UP >>> AMOTION_EVENT_ACTION_POINTER_INDEX_SHIFT =
        (0 : Int) := by decide
    rw [hshift]
    by_cases h0 : pointer_count = 0
    · simp [h0]
    · have : ¬ ((pointer_count : Int) = 0) := by omega
      simp [h0, this]
  · simp [h]

/-- The calls of the pointer-up expansion, entered with `i` pointers down: one `POINTER_UP`
transition for every pointer index from `i - 1` down to 2, each carrying the pointers still
down; at most two pointers are left for the final `UP`. -/
theorem upLoop_transitions :
    ∀ (i : Nat) (s : MotionState), s.event.pointer_count = i →
      injectedTransitions (upLoop i s).effects =
        injectedTransitions s.effects ++
          ((List.range' 2 (i - 2)).reverse).map
            (fun j => (actionWithIndex AMOTION_EVENT_ACTION_POINTER_UP j, j + 1)) ∧
      (upLoop i s).event.pointer_count = min i 2 := by
  intro i
  induction i with
  | zero =>
    intro s h
    simp [upLoop, h]
  | succ i ih =>
    intro s h
    by_cases hgt : i > 1
    · have hrange : List.range' 2 (i + 1 - 2) = List.range' 2 (i - 2) ++ [i] := by
        have h1 : i + 1 - 2 = (i - 2) + 1 := by omega
        rw [h1, List.range'_concat]
        congr 2
        omega
      rw [upLoop]
      simp only [hgt, if_true]
      obtain ⟨ih1, ih2⟩ := ih
        { (InjectMotionEvent
            { s with
              event := { s.event with
                action := actionWithIndex AMOTION_EVENT_ACTION_POINTER_UP i }
              controller := { s.controller with
                pointer_coordinates_ := modifyElement s.controller.pointer_coordinates_ i
                  (fun coordinates => { coordinates with pressure := 0 }) } }) with
          event := { (InjectMotionEvent
            { s with
              event := { s.event with
                action := actionWithIndex AMOTION_EVENT_ACTION_POINTER_UP i }
              controller := { s.controller with
                pointer_coordinates_ := modifyElement s.controller.pointer_coordinates_ i
                  (fun coordinates => { coordinates with pressure := 0 }) } }).event with
            pointer_count := i } } rfl
      refine ⟨?_, ?_⟩
      · rw [ih1, hrange]
        simp [InjectMotionEvent, injectedTransitions, motionInjects_append, motionInjects, h]
      · rw [ih2]
        omega
    · rw [upLoop]
      have hi : i + 1 - 2 = 0 := by omega
      simp only [hgt, if_false, hi, List.range'_zero, List.reverse_nil, List.map_nil,
        List.append_nil, true_and]
      omega

/-! ## Gesture translation -/

/-- C1: a DOWN message without action button and with N ≥ 1 pointers on a valid display makes
exactly N motion inject calls; the first is the DOWN with pointer count 1 and, for every pointer
index j = 1..N-1 in ascending order, the next is POINTER_DOWN | (j << 8) with pointer count
j + 1. -/
theorem ProcessMotionEvent_down_expands (c : Controller) (now : Int) (display_info : DisplayInfo)
    (key_now : Int) (message : MotionEventMessage)
    (haction : message.action = AMOTION_EVENT_ACTION_DOWN)
    (hbutton : message.action_button = 0)
    (hcount : 1 ≤ message.pointers.length)
    (hvalid : display_info.IsValid = true) :
    injectedTransitions (ProcessMotionEvent c now display_info key_now message).2 =
      (AMOTION_EVENT_ACTION_DOWN, 1) ::
        (List.range' 1 (message.pointers.length - 1)).map
          (fun j => (actionWithIndex AMOTION_EVENT_ACTION_POINTER_DOWN j, j + 1)) ∧
    (injectedTransitions (ProcessMotionEvent c now display_info key_now message).2).length =
      message.pointers.length := by
  obtain ⟨e1, -, -, e4⟩ := stateBeforeInject_event c now display_info message
  have key : injectedTransitions (ProcessMotionEvent c now display_info key_now message).2 =
      (AMOTION_EVENT_ACTION_DOWN, 1) ::
        (List.range' 1 (message.pointers.length - 1)).map
          (fun j => (actionWithIndex AMOTION_EVENT_ACTION_POINTER_DOWN j, j + 1)) := by
    rw [ProcessMotionEvent_valid c now display_info key_now message hvalid]
    simp only [injectedTransitions, motionInjects_afterInject]
    have hexp : injectEvents message (stateBeforeInject c now display_info message) =
        InjectMotionEvent (downLoop message.pointers.length message.pointers.length 1
          (stateBeforeInject c now display_info message)) := by
      simp [injectEvents, haction, hbutton]
    have hloop := downLoop_transitions message.pointers.length message.pointers.length 1
      (stateBeforeInject c now display_info message) hcount (by omega)
    simp only [injectedTransitions] at hloop
    rw [hexp, hloop, e4, e1, haction]
    rfl
  refine ⟨key, ?_⟩
  rw [key]
  simp only [List.length_cons, List.length_map, List.length_range']
  omega

theorem ProcessMotionEvent_down_expands_witness :
    injectedTransitions (ProcessMotionEvent Controller.initial 100
        { NaturalSize := { width := 1080, height := 1920 }, rotation := 0, IsValid := true,
          IsOn := true } 100
        { pointers := [{ x := 10, y := 20, pointer_id := 0, axis_values := [] },
                       { x := 30, y := 40, pointer_id := 1, axis_values := [] }],
          action := 0, display_id := 0, action_button := 0, button_state := 0 }).2 =
      [(0, 1), (261, 2)] :=
  (ProcessMotionEvent_down_expands Controller.initial 100
    { NaturalSize := { width := 1080, height := 1920 }, rotation := 0, IsValid := true,
      IsOn := true } 100
    { pointers := [{ x := 10, y := 20, pointer_id := 0, axis_values := [] },
                   { x := 30, y := 40, pointer_id := 1, axis_values := [] }],
      action := 0, display_id := 0, action_button := 0, button_state := 0 }
    rfl rfl (by decide) rfl).1

/-- C2 (the code at the failing input): an UP message without action button and with two
pointers makes a single motion inject call, an UP that still carries pointer count 2; no
POINTER_UP | (1 << 8) transition precedes it. -/
theorem ProcessMotionEvent_up_two_pointers :
    injectedTransitions (ProcessMotionEvent Controller.initial 100
        { NaturalSize := { width := 1080, height := 1920 }, rotation := 0, IsValid := true,
          IsOn := true } 100
        { pointers := [{ x := 10, y := 20, pointer_id := 0, axis_values := [] },
                       { x := 30, y := 40, pointer_id := 1, axis_values := [] }],
          action := AMOTION_EVENT_ACTION_UP, display_id := 0, action_button := 0,
          button_state := 0 }).2 =
      [(AMOTION_EVENT_ACTION_UP, 2)] := by
  decide

/-- What the code does on an UP message without action button, for any number N of pointers on
a valid display: a `POINTER_UP` transition for every pointer index from N - 1 down to 2, then
the `UP`, which carries the pointers with index below 2 that are still down. -/
theorem ProcessMotionEvent_up_transitions (c : Controller) (now : Int)
    (display_info : DisplayInfo) (key_now : Int) (message : MotionEventMessage)
    (haction : message.action = AMOTION_EVENT_ACTION_UP)
    (hbutton : message.action_button = 0)
    (hvalid : display_info.IsValid = true) :
    injectedTransitions (ProcessMotionEvent c now display_info key_now message).2 =
      ((List.range' 2 (message.pointers.length - 2)).reverse).map
          (fun j => (actionWithIndex AMOTION_EVENT_ACTION_POINTER_UP j, j + 1)) ++
        [(AMOTION_EVENT_ACTION_UP, min message.pointers.length 2)] := by
  obtain ⟨-, -, e3, e4⟩ := stateBeforeInject_event c now display_info message
  rw [ProcessMotionEvent_valid c now display_info key_now message hvalid]
  simp only [injectedTransitions, motionInjects_afterInject]
  have hne : AMOTION_EVENT_ACTION_UP ≠ AMOTION_EVENT_ACTION_DOWN := by decide
  obtain ⟨u1, u2⟩ := upLoop_transitions
    (stateBeforeInject c now display_info message).event.pointer_count
    (stateBeforeInject c now display_info message) rfl
  simp only [injectedTransitions] at u1
  rw [e3] at u1 u2
  simp only [injectEvents, haction, hbutton, hne, if_false, if_true, ne_eq, not_true_eq_false,
    InjectMotionEvent, motionInjects_append, motionInjects, List.map_append, u1, u2, e3, e4,
    List.map_nil, List.nil_append, List.map_cons]

/-- C3: with a non-zero action button b on a valid display, whatever the pointers, a DOWN makes
exactly two motion inject calls, the DOWN and then a BUTTON_PRESS with action button b, and an UP
makes exactly two, a BUTTON_RELEASE with action button b and then the UP with action button 0.
Every call carries all pointers of the message. -/
theorem ProcessMotionEvent_action_button (c : Controller) (now : Int)
    (display_info : DisplayInfo) (key_now : Int) (message : MotionEventMessage)
    (hbutton : message.action_button ≠ 0)
    (hvalid : display_info.IsValid = true) :
    (message.action = AMOTION_EVENT_ACTION_DOWN →
      injectedButtons (ProcessMotionEvent c now display_info key_now message).2 =
        [(AMOTION_EVENT_ACTION_DOWN, 0, message.pointers.length),
         (AMOTION_EVENT_ACTION_BUTTON_PRESS, message.action_button, message.pointers.length)]) ∧
    (message.action = AMOTION_EVENT_ACTION_UP →
      injectedButtons (ProcessMotionEvent c now display_info key_now message).2 =
        [(AMOTION_EVENT_ACTION_BUTTON_RELEASE, message.action_button, message.pointers.length),
         (AMOTION_EVENT_ACTION_UP, 0, message.pointers.length)]) := by
  obtain ⟨e1, e2, e3, e4⟩ := stateBeforeInject_event c now display_info message
  rw [ProcessMotionEvent_valid c now display_info key_now message hvalid]
  simp only [injectedButtons, motionInjects_afterInject]
  constructor
  · intro haction
    simp [injectEvents, haction, hbutton, InjectMotionEvent, motionInjects_append, motionInjects,
      e4, e2, e3]
    exact haction ▸ e1
  · intro haction
    have hne : AMOTION_EVENT_ACTION_UP ≠ AMOTION_EVENT_ACTION_DOWN := by decide
    simp [injectEvents, haction, hbutton, hne, InjectMotionEvent, motionInjects_append,
      motionInjects, e4, e3]

theorem ProcessMotionEvent_action_button_witness :
    injectedButtons (ProcessMotionEvent Controller.initial 100
        { NaturalSize := { width := 1080, height := 1920 }, rotation := 0, IsValid := true,
          IsOn := true } 100
        { pointers := [{ x := 10, y := 20, pointer_id := 0, axis_values := [] }],
          action := 0, display_id := 0, action_button := 2, button_state := 2 }).2 =
      [(0, 0, 1), (11, 2, 1)] ∧
    injectedButtons (ProcessMotionEvent Controller.initial 100
        { NaturalSize := { width := 1080, height := 1920 }, rotation := 0, IsValid := true,
          IsOn := false } 100
        { pointers := [{ x := 10, y := 20, pointer_id := 0, axis_values := [] }],
          action := 1, display_id := 0, action_button := 2, button_state := 0 }).2 =
      [(12, 2, 1), (1, 0, 1)] :=
  ⟨(ProcessMotionEvent_action_button Controller.initial 100
      { NaturalSize := { width := 1080, height := 1920 }, rotation := 0, IsValid := true,
        IsOn := true } 100
      { pointers := [{ x := 10, y := 20, pointer_id := 0, axis_values := [] }],
        action := 0, display_id := 0, action_button := 2, button_state := 2 }
      (by decide) rfl).1 rfl,
   (ProcessMotionEvent_action_button Controller.initial 100
      { NaturalSize := { width := 1080, height := 1920 }, rotation := 0, IsValid := true,
        IsOn := false } 100
      { pointers := [{ x := 10, y := 20, pointer_id := 0, axis_values := [] }],
        action := 1, display_id := 0, action_button := 2, button_state := 0 }
      (by decide) rfl).2 rfl⟩

/-- C4 (the code at the failing input): for the action POINTER_UP | (1 << 8) and two pointers,
the coordinate records of both pointers get pressure 1; the record at index 1, the pointer being
removed, does not get pressure 0. -/
theorem ProcessMotionEvent_pointer_up_index_one :
    (ProcessMotionEvent Controller.initial 100
        { NaturalSize := { width := 1080, height := 1920 }, rotation := 0, IsValid := true,
          IsOn := true } 100
        { pointers := [{ x := 10, y := 20, pointer_id := 0, axis_values := [] },
                       { x := 30, y := 40, pointer_id := 1, axis_values := [] }],
          action := actionWithIndex AMOTION_EVENT_ACTION_POINTER_UP 1, display_id := 0,
          action_button := 0, button_state := 0 }).1.pointer_coordinates_.map
      (fun coordinates => coordinates.pressure) = [1, 1] := by
  decide

/-! ## Rotation transform -/

theorem wrapInt32_of_IsInt32 (z : Int) (h : IsInt32 z) : wrapInt32 z = z := by
  unfold IsInt32 at h
  unfold wrapInt32
  omega

theorem IsInt32_wrapInt32 (z : Int) : IsInt32 (wrapInt32 z) := by
  unfold IsInt32 wrapInt32
  omega

/-- C5: for every natural size (W, H), rotation r in {0,1,2,3} and point (x, y) of 32-bit
integers, `AdjustedDisplayCoordinates` is the transform r = 0: (x, y); r = 1: (y, W - x);
r = 2: (W - x, H - y); r = 3: (H - y, x) (exactly so whenever the differences are representable),
its results are 32-bit integers, and the transform for the inverse rotation, taken against the
size with width and height swapped for r = 1 and r = 3, is its two-sided inverse: forward then
inverse and inverse then forward both give back (x, y).  Rotations 0 and 2 are their own
inverse, 1 and 3 are inverse to each other. -/
theorem AdjustedDisplayCoordinates_bijection (display_info : DisplayInfo) (x y : Int)
    (hr : 0 ≤ display_info.rotation ∧ display_info.rotation ≤ 3)
    (hx : IsInt32 x) (hy : IsInt32 y) :
    (IsInt32 (display_info.NaturalSize.width - x) →
      IsInt32 (display_info.NaturalSize.height - y) →
      AdjustedDisplayCoordinates x y display_info =
        rotationSpec display_info.NaturalSize.width display_info.NaturalSize.height
          display_info.rotation x y) ∧
    (IsInt32 (AdjustedDisplayCoordinates x y display_info).x ∧
      IsInt32 (AdjustedDisplayCoordinates x y display_info).y) ∧
    AdjustedDisplayCoordinates (AdjustedDisplayCoordinates x y display_info).x
      (AdjustedDisplayCoordinates x y display_info).y (inverseDisplay display_info) =
        { x := x, y := y } ∧
    AdjustedDisplayCoordinates (AdjustedDisplayCoordinates x y (inverseDisplay display_info)).x
      (AdjustedDisplayCoordinates x y (inverseDisplay display_info)).y display_info =
        { x := x, y := y } ∧
    ((display_info.rotation = 0 ∨ display_info.rotation = 2) →
      inverseDisplay display_info = display_info) ∧
    (display_info.rotation = 1 → (inverseDisplay display_info).rotation = 3 ∧
      (inverseDisplay display_info).NaturalSize =
        { width := display_info.NaturalSize.height, height := display_info.NaturalSize.width }) ∧
    (display_info.rotation = 3 → (inverseDisplay display_info).rotation = 1 ∧
      (inverseDisplay display_info).NaturalSize =
        { width := display_info.NaturalSize.height, height := display_info.NaturalSize.width }) := by
  obtain ⟨size, r, valid, isOn⟩ := display_info
  obtain ⟨W, H⟩ := size
  simp only at hr
  unfold IsInt32 at hx hy
  have hcases : r = 0 ∨ r = 1 ∨ r = 2 ∨ r = 3 := by omega
  rcases hcases with h | h | h | h <;> subst h
  all_goals
    simp only [AdjustedDisplayCoordinates, inverseDisplay, inverseRotation, rotatedSize,
      rotationSpec, IsInt32, wrapInt32]
    norm_num
    try omega

theorem AdjustedDisplayCoordinates_bijection_witness :
    AdjustedDisplayCoordinates 1080 1920
        { NaturalSize := { width := 1080, height := 1920 }, rotation := 1, IsValid := true,
          IsOn := true } = { x := 1920, y := 0 } ∧
    AdjustedDisplayCoordinates 1920 0
        { NaturalSize := { width := 1920, height := 1080 }, rotation := 3, IsValid := true,
          IsOn := true } = { x := 1080, y := 1920 } :=
  ⟨(AdjustedDisplayCoordinates_bijection
      { NaturalSize := { width := 1080, height := 1920 }, rotation := 1, IsValid := true,
        IsOn := true } 1080 1920 (by decide) (by decide) (by decide)).1 (by decide) (by decide),
   (AdjustedDisplayCoordinates_bijection
      { NaturalSize := { width := 1080, height := 1920 }, rotation := 1, IsValid := true,
        IsOn := true } 1080 1920 (by decide) (by decide) (by decide)).2.2.1⟩

/-! ## UTF-8 -/

theorem foldl_count_add (str : List Nat) (k : Int) :
    str.foldl (fun count ch => if ch &&& 0xC0 ≠ 0x80 then count + 1 else count) k =
      k + Utf8CharacterCount str := by
  induction str generalizing k with
  | nil => simp [Utf8CharacterCount]
  | cons ch rest ih =>
    simp only [Utf8CharacterCount, List.foldl_cons]
    rw [ih, ih (if ch &&& 0xC0 ≠ 0x80 then (0 : Int) + 1 else 0)]
    split <;> omega

theorem Utf8CharacterCount_append (a b : List Nat) :
    Utf8CharacterCount (a ++ b) = Utf8CharacterCount a + Utf8CharacterCount b := by
  unfold Utf8CharacterCount
  rw [List.foldl_append, foldl_count_add]
  rfl

theorem continuation_byte : ∀ r, r < 64 → (0x80 + r) &&& 0xC0 = 0x80 := by decide

theorem lead_byte_one : ∀ cp, cp < 0x80 → cp &&& 0xC0 ≠ 0x80 := by decide

theorem lead_byte_two : ∀ q, q < 32 → (0xC0 + q) &&& 0xC0 ≠ 0x80 := by decide

theorem lead_byte_three : ∀ q, q < 16 → (0xE0 + q) &&& 0xC0 ≠ 0x80 := by decide

theorem lead_byte_four : ∀ q, q < 5 → (0xF0 + q) &&& 0xC0 ≠ 0x80 := by decide

/-- The encoding of one code point has one byte that is not a continuation byte. -/
theorem Utf8CharacterCount_utf8EncodeCodePoint (cp : Nat) (h : cp < 0x110000) :
    Utf8CharacterCount (utf8EncodeCodePoint cp) = 1 := by
  have c1 := continuation_byte (cp % 64) (Nat.mod_lt _ (by decide))
  have c2 := continuation_byte (cp / 64 % 64) (Nat.mod_lt _ (by decide))
  have c3 := continuation_byte (cp / 4096 % 64) (Nat.mod_lt _ (by decide))
  unfold utf8EncodeCodePoint
  split
  · rename_i h1
    simp [Utf8CharacterCount, lead_byte_one cp h1]
  · split
    · rename_i h1 h2
      have := lead_byte_two (cp / 64) (by omega)
      simp [Utf8CharacterCount, this, c1]
    · split
      · rename_i h1 h2 h3
        have := lead_byte_three (cp / 4096) (by omega)
        simp [Utf8CharacterCount, this, c1, c2]
      · have := lead_byte_four (cp / 262144) (by omega)
        simp [Utf8CharacterCount, this, c1, c2, c3]

theorem length_utf8EncodeCodePoint (cp : Nat) :
    1 ≤ (utf8EncodeCodePoint cp).length ∧ (utf8EncodeCodePoint cp).length ≤ 4 := by
  unfold utf8EncodeCodePoint
  split
  · simp
  · split
    · simp
    · split <;> simp

theorem IsScalarValue.lt {cp : Nat} (h : IsScalarValue cp) : cp < 0x110000 := by
  unfold IsScalarValue at h
  omega

/-- On well-formed UTF-8 the count is the number of encoded code points. -/
theorem Utf8CharacterCount_utf8Encode (cps : List Nat) (h : ∀ cp ∈ cps, IsScalarValue cp) :
    Utf8CharacterCount (utf8Encode cps) = cps.length := by
  induction cps with
  | nil => rfl
  | cons cp rest ih =>
    rw [utf8Encode, Utf8CharacterCount_append,
      Utf8CharacterCount_utf8EncodeCodePoint cp (h cp (by simp)).lt,
      ih (fun q hq => h q (by simp [hq]))]
    simp only [List.length_cons]
    push_cast
    omega

theorem length_utf8Encode (cps : List Nat) :
    cps.length ≤ (utf8Encode cps).length ∧ (utf8Encode cps).length ≤ 4 * cps.length := by
  induction cps with
  | nil => simp [utf8Encode]
  | cons cp rest ih =>
    have := length_utf8EncodeCodePoint cp
    simp only [utf8Encode, List.length_append, List.length_cons]
    omega

/-! ## Clipboard notifications -/

/-- C6 (as stated, refuted): with the dirty flag set and a negotiated max length of 2^30, the
live text "a" is not empty, differs from the last-known text and has one code point, which is
not more than the max length; yet no notification is written and the last-known text stays
empty.  The product `max_length * 4` leaves the range of `int` and the byte-length check
compares against 0. -/
theorem SendClipboardChangedNotification_large_max_length :
    utf8Encode [0x61] = [0x61] ∧
    ([0x61] : List Nat) ≠ [] ∧
    [0x61] ≠ controllerWithLargeMaxLength.last_clipboard_text_ ∧
    ¬ ((([0x61] : List Nat).length : Int) >
        controllerWithLargeMaxLength.max_synced_clipboard_length_) ∧
    written (SendClipboardChangedNotification controllerWithLargeMaxLength [0x61]).2 = [] ∧
    (SendClipboardChangedNotification controllerWithLargeMaxLength
      [0x61]).1.last_clipboard_text_ = [] := by
  decide

/-- C6 (amended): with the dirty flag set, a negotiated max length L for which 4 * L is
representable as an `int`, and a live text that is the UTF-8 encoding of a sequence of Unicode
scalar values: if the text is empty, or equals the last-known text, or has more code points
than L, the call reads the clipboard, writes nothing and leaves the last-known text unchanged;
otherwise it writes exactly one clipboard-changed notification carrying the live text and sets
the last-known text to it. -/
theorem SendClipboardChangedNotification_suppression (c : Controller) (cps : List Nat)
    (hdirty : c.clipboard_changed_ = true)
    (hwf : ∀ cp ∈ cps, IsScalarValue cp)
    (hmax : IsInt32 (c.max_synced_clipboard_length_ * 4)) :
    ((utf8Encode cps = [] ∨ utf8Encode cps = c.last_clipboard_text_ ∨
        (cps.length : Int) > c.max_synced_clipboard_length_) →
      SendClipboardChangedNotification c (utf8Encode cps) =
        ({ c with clipboard_changed_ := false }, [Effect.GetText])) ∧
    (¬ (utf8Encode cps = [] ∨ utf8Encode cps = c.last_clipboard_text_ ∨
        (cps.length : Int) > c.max_synced_clipboard_length_) →
      SendClipboardChangedNotification c (utf8Encode cps) =
        ({ c with clipboard_changed_ := false, last_clipboard_text_ := utf8Encode cps },
          [Effect.GetText,
            Effect.Serialize (Notification.ClipboardChangedNotification (utf8Encode cps))])) := by
  have hcount := Utf8CharacterCount_utf8Encode cps hwf
  have hlen := length_utf8Encode cps
  unfold IsInt32 at hmax
  constructor
  · intro h
    simp only [SendClipboardChangedNotification, hdirty, hcount, Bool.not_true,
      Bool.false_eq_true, if_false]
    by_cases h1 : (utf8Encode cps).isEmpty = true ∨ utf8Encode cps = c.last_clipboard_text_
    · rw [if_pos h1]
    · have h2 : (cps.length : Int) > c.max_synced_clipboard_length_ := by
        rcases h with h | h | h
        · exact absurd (Or.inl (by simp [h])) h1
        · exact absurd (Or.inr h) h1
        · exact h
      rw [if_neg h1, if_pos (Or.inr h2)]
  · intro h
    have h1 : ¬ ((utf8Encode cps).isEmpty = true ∨ utf8Encode cps = c.last_clipboard_text_) := by
      intro h'
      rcases h' with h' | h'
      · exact h (Or.inl (by simpa using h'))
      · exact h (Or.inr (Or.inl h'))
    have h2 : ¬ ((cps.length : Int) > c.max_synced_clipboard_length_) :=
      fun h' => h (Or.inr (Or.inr h'))
    have h3 : ¬ ((utf8Encode cps).length >
        toSizeT (wrapInt32 (c.max_synced_clipboard_length_ * UTF8_MAX_BYTES_PER_CHARACTER))) := by
      unfold toSizeT wrapInt32 UTF8_MAX_BYTES_PER_CHARACTER
      omega
    simp only [SendClipboardChangedNotification, hdirty, hcount, Bool.not_true,
      Bool.false_eq_true, if_false]
    rw [if_neg h1, if_neg (fun h' => h'.elim h3 h2)]

theorem SendClipboardChangedNotification_suppression_witness :
    SendClipboardChangedNotification
        { Controller.initial with clipboard_changed_ := true, max_synced_clipboard_length_ := 2 }
        (utf8Encode [0x61, 0x20AC]) =
      ({ Controller.initial with
          max_synced_clipboard_length_ := 2
          last_clipboard_text_ := utf8Encode [0x61, 0x20AC] },
        [Effect.GetText,
          Effect.Serialize (Notification.ClipboardChangedNotification
            (utf8Encode [0x61, 0x20AC]))]) ∧
    SendClipboardChangedNotification
        { Controller.initial with clipboard_changed_ := true, max_synced_clipboard_length_ := 1 }
        (utf8Encode [0x61, 0x20AC]) =
      ({ Controller.initial with max_synced_clipboard_length_ := 1 }, [Effect.GetText]) :=
  ⟨(SendClipboardChangedNotification_suppression
      { Controller.initial with clipboard_changed_ := true, max_synced_clipboard_length_ := 2 }
      [0x61, 0x20AC] rfl (by decide) (by decide)).2 (by decide),
   (SendClipboardChangedNotification_suppression
      { Controller.initial with clipboard_changed_ := true, max_synced_clipboard_length_ := 1 }
      [0x61, 0x20AC] rfl (by decide) (by decide)).1 (by decide)⟩

theorem written_append (a b : List Effect) : written (a ++ b) = written a ++ written b := by
  induction a with
  | nil => rfl
  | cons e rest ih => cases e <;> simp [written, ih]

/-- One call leaves the dirty flag false, writes at most one notification and reads the
clipboard at most once. -/
theorem SendClipboardChangedNotification_once (c : Controller) (clipboard : List Nat) :
    (SendClipboardChangedNotification c clipboard).1.clipboard_changed_ = false ∧
    (written (SendClipboardChangedNotification c clipboard).2).length ≤ 1 ∧
    clipboardReads (SendClipboardChangedNotification c clipboard).2 ≤ 1 := by
  simp only [SendClipboardChangedNotification]
  split
  · simp [written, clipboardReads]
  · split
    · simp [written, clipboardReads]
    · split <;> simp [written, clipboardReads]

/-- With the dirty flag false the call does nothing at all. -/
theorem SendClipboardChangedNotification_clean (c : Controller) (clipboard : List Nat)
    (h : c.clipboard_changed_ = false) :
    SendClipboardChangedNotification c clipboard = (c, []) := by
  cases c
  simp only at h
  subst h
  rfl

theorem repeatSendClipboardChangedNotification_clean (texts : List (List Nat)) :
    ∀ c : Controller, c.clipboard_changed_ = false →
      repeatSendClipboardChangedNotification c texts = (c, []) := by
  induction texts with
  | nil => intro c _; rfl
  | cons t rest ih =>
    intro c h
    simp only [repeatSendClipboardChangedNotification,
      SendClipboardChangedNotification_clean c t h, ih c h, List.append_nil]

/-- C7: every call of `SendClipboardChangedNotification` leaves the dirty flag false and writes
at most one notification; with the dirty flag false on entry it makes no collaborator call (it
neither writes nor reads the clipboard) and returns the session state unchanged.  Hence any
number of consecutive calls with no change callback in between read the clipboard at most once
and write at most one notification in total. -/
theorem SendClipboardChangedNotification_test_and_clear (c : Controller)
    (clipboard : List Nat) (texts : List (List Nat)) :
    (SendClipboardChangedNotification c clipboard).1.clipboard_changed_ = false ∧
    (written (SendClipboardChangedNotification c clipboard).2).length ≤ 1 ∧
    (c.clipboard_changed_ = false → SendClipboardChangedNotification c clipboard = (c, [])) ∧
    (written (repeatSendClipboardChangedNotification c texts).2).length ≤ 1 ∧
    clipboardReads (repeatSendClipboardChangedNotification c texts).2 ≤ 1 := by
  obtain ⟨h1, h2, -⟩ := SendClipboardChangedNotification_once c clipboard
  refine ⟨h1, h2, SendClipboardChangedNotification_clean c clipboard, ?_⟩
  cases texts with
  | nil => simp [repeatSendClipboardChangedNotification, written, clipboardReads]
  | cons t rest =>
    obtain ⟨g1, g2, g3⟩ := SendClipboardChangedNotification_once c t
    simp only [repeatSendClipboardChangedNotification,
      repeatSendClipboardChangedNotification_clean rest _ g1, List.append_nil]
    exact ⟨g2, g3⟩

theorem SendClipboardChangedNotification_test_and_clear_witness :
    SendClipboardChangedNotification
        { Controller.initial with max_synced_clipboard_length_ := 10 } [0x61] =
      ({ Controller.initial with max_synced_clipboard_length_ := 10 }, []) ∧
    (written (repeatSendClipboardChangedNotification
        { Controller.initial with max_synced_clipboard_length_ := 10, clipboard_changed_ := true }
        [[0x61], [0x62], [0x63]]).2).length ≤ 1 :=
  ⟨(SendClipboardChangedNotification_test_and_clear
      { Controller.initial with max_synced_clipboard_length_ := 10 } [0x61] []).2.2.1 rfl,
   (SendClipboardChangedNotification_test_and_clear
      { Controller.initial with max_synced_clipboard_length_ := 10, clipboard_changed_ := true }
      [0x61] [[0x61], [0x62], [0x63]]).2.2.2.1⟩

/-! ## Device state notifications -/

theorem written_OnDeviceStateChanged (c : Controller) (device_state : Int) :
    written (OnDeviceStateChanged c device_state).2 = [] ∧
    (OnDeviceStateChanged c device_state).1.device_state_ = device_state ∧
    (OnDeviceStateChanged c device_state).1.previous_device_state_ =
      c.previous_device_state_ := by
  simp only [OnDeviceStateChanged]
  split <;> simp [written]

theorem getLast?_getD_cons (r : Int) (l : List Int) (x y : Int) :
    ((r :: l).getLast?).getD x = ((r :: l).getLast?).getD y := by
  rw [List.getLast?_eq_getLast _ (List.cons_ne_nil _ _)]
  rfl

/-- Callbacks write no notification, keep the last-sent state and leave the state reported by
the last callback as the current one. -/
theorem deviceStateCallbacks_spec (states : List Int) :
    ∀ c : Controller,
      written (deviceStateCallbacks c states).2 = [] ∧
      (deviceStateCallbacks c states).1.previous_device_state_ = c.previous_device_state_ ∧
      (deviceStateCallbacks c states).1.device_state_ = (states.getLast?).getD c.device_state_ := by
  induction states with
  | nil => intro c; simp [deviceStateCallbacks, written]
  | cons s rest ih =>
    intro c
    obtain ⟨a1, a2, a3⟩ := written_OnDeviceStateChanged c s
    obtain ⟨b1, b2, b3⟩ := ih (OnDeviceStateChanged c s).1
    refine ⟨?_, ?_, ?_⟩
    · simp only [deviceStateCallbacks, written_append, a1, b1, List.append_nil]
    · simp only [deviceStateCallbacks, b2, a3]
    · simp only [deviceStateCallbacks, b3, a2]
      cases rest with
      | nil => simp
      | cons r rest2 =>
        rw [List.getLast?_cons_cons]
        exact getLast?_getD_cons r rest2 _ _

/-- C8: `SendDeviceStateNotification` writes exactly one posture notification, carrying the
current device state, when the current state differs from the last-sent state, and writes
nothing when they are equal; afterwards last-sent equals current.  Hence a second check right
after a check writes nothing, and a check after any sequence of `OnDeviceStateChanged` callbacks
(which themselves write nothing) that ends on the last-sent value writes nothing. -/
theorem SendDeviceStateNotification_edge_triggered (c : Controller) (states : List Int) :
    (c.device_state_ ≠ c.previous_device_state_ →
      (SendDeviceStateNotification c).2 =
        [Effect.Serialize (Notification.DeviceStateNotification c.device_state_)]) ∧
    (c.device_state_ = c.previous_device_state_ → (SendDeviceStateNotification c).2 = []) ∧
    (SendDeviceStateNotification c).1.previous_device_state_ = c.device_state_ ∧
    (SendDeviceStateNotification c).1.device_state_ = c.device_state_ ∧
    (SendDeviceStateNotification (SendDeviceStateNotification c).1).2 = [] ∧
    written (deviceStateCallbacks c states).2 = [] ∧
    ((states.getLast?).getD c.device_state_ = c.previous_device_state_ →
      (SendDeviceStateNotification (deviceStateCallbacks c states).1).2 = []) := by
  have hstep : ∀ d : Controller, d.device_state_ = d.previous_device_state_ →
      (SendDeviceStateNotification d).2 = [] := by
    intro d h
    simp [SendDeviceStateNotification, h]
  have hprev : (SendDeviceStateNotification c).1.previous_device_state_ = c.device_state_ ∧
      (SendDeviceStateNotification c).1.device_state_ = c.device_state_ := by
    simp only [SendDeviceStateNotification]
    split
    · exact ⟨rfl, rfl⟩
    · rename_i h
      exact ⟨(not_not.mp h).symm, rfl⟩
  obtain ⟨k1, k2, k3⟩ := deviceStateCallbacks_spec states c
  refine ⟨?_, hstep c, hprev.1, hprev.2, hstep _ (hprev.2.trans hprev.1.symm), k1, ?_⟩
  · intro h
    simp [SendDeviceStateNotification, h]
  · intro h
    exact hstep _ (by rw [k3, k2, h])

theorem SendDeviceStateNotification_edge_triggered_witness :
    (SendDeviceStateNotification { Controller.initial with device_state_ := 2 }).2 =
      [Effect.Serialize (Notification.DeviceStateNotification 2)] ∧
    (SendDeviceStateNotification Controller.initial).2 = [] ∧
    (SendDeviceStateNotification
      (deviceStateCallbacks
        { Controller.initial with device_state_ := 2, previous_device_state_ := 2 }
        [1, 3, 2]).1).2 = [] :=
  ⟨(SendDeviceStateNotification_edge_triggered
      { Controller.initial with device_state_ := 2 } []).1 (by decide),
   (SendDeviceStateNotification_edge_triggered Controller.initial []).2.1 rfl,
   (SendDeviceStateNotification_edge_triggered
      { Controller.initial with device_state_ := 2, previous_device_state_ := 2 }
      [1, 3, 2]).2.2.2.2.2.2 rfl⟩

/-! ## Display hotplug notifications -/

theorem sendDisplayEvents_eq_map (events : List DisplayEvent) :
    sendDisplayEvents events =
      events.map (fun event => Effect.Serialize event.notification) := by
  induction events with
  | nil => rfl
  | cons event rest ih =>
    obtain ⟨id, type⟩ := event
    cases type <;> simp [sendDisplayEvents, DisplayEvent.notification, ih]

theorem sendDisplayEvents_append (a b : List DisplayEvent) :
    sendDisplayEvents (a ++ b) = sendDisplayEvents a ++ sendDisplayEvents b := by
  simp [sendDisplayEvents_eq_map]

/-- What the drains have written, followed by what a drain would write for the events still
queued, is what one drain would write for the initial queue followed by all callbacks. -/
theorem runHotplug_invariant (ops : List HotplugOp) :
    ∀ c : Controller,
      (runHotplug c ops).2 ++ sendDisplayEvents (runHotplug c ops).1.pending_display_events_ =
        sendDisplayEvents (c.pending_display_events_ ++ callbackEvents ops) := by
  induction ops with
  | nil => intro c; simp [runHotplug, callbackEvents]
  | cons op rest ih =>
    intro c
    cases op with
    | added id =>
      simp only [runHotplug, callbackEvents]
      rw [ih]
      simp [OnDisplayAdded]
    | removed id =>
      simp only [runHotplug, callbackEvents]
      rw [ih]
      simp [OnDisplayRemoved]
    | drain =>
      simp only [runHotplug, callbackEvents, List.append_assoc]
      rw [ih]
      simp [SendPendingDisplayEvents, sendDisplayEvents_append]

theorem runHotplug_append (a b : List HotplugOp) :
    ∀ c : Controller,
      runHotplug c (a ++ b) =
        ((runHotplug (runHotplug c a).1 b).1, (runHotplug c a).2 ++ (runHotplug (runHotplug c a).1 b).2) := by
  induction a with
  | nil => intro c; simp [runHotplug]
  | cons op rest ih =>
    intro c
    cases op <;> simp [runHotplug, ih]

/-- C9: for every history of `OnDisplayAdded` / `OnDisplayRemoved` callbacks interleaved with
`SendPendingDisplayEvents` calls, the notifications written by the drains, followed by those
still owed for the queued events, are the notifications of the initially queued events and of
the callbacks, in kind, display id and order, each exactly once; the queue is empty right after
every drain; and a history that starts with an empty queue and ends with a drain has written
exactly the notifications of its callbacks and nothing else. -/
theorem SendPendingDisplayEvents_fifo (c : Controller) (ops : List HotplugOp) :
    (runHotplug c ops).2 ++
        (runHotplug c ops).1.pending_display_events_.map
          (fun event => Effect.Serialize event.notification) =
      (c.pending_display_events_ ++ callbackEvents ops).map
        (fun event => Effect.Serialize event.notification) ∧
    (SendPendingDisplayEvents c).1.pending_display_events_ = [] ∧
    (runHotplug c (ops ++ [HotplugOp.drain])).1.pending_display_events_ = [] ∧
    (c.pending_display_events_ = [] →
      (runHotplug c (ops ++ [HotplugOp.drain])).2 =
        (callbackEvents ops).map (fun event => Effect.Serialize event.notification)) := by
  have hinv := runHotplug_invariant ops c
  rw [sendDisplayEvents_eq_map, sendDisplayEvents_eq_map] at hinv
  have hend : (runHotplug c (ops ++ [HotplugOp.drain])).1.pending_display_events_ = [] := by
    rw [runHotplug_append]
    simp [runHotplug, SendPendingDisplayEvents]
  refine ⟨hinv, rfl, hend, ?_⟩
  intro hempty
  have hall := runHotplug_invariant (ops ++ [HotplugOp.drain]) c
  rw [hend, hempty] at hall
  have hcb : callbackEvents (ops ++ [HotplugOp.drain]) = callbackEvents ops := by
    clear hinv hend hall
    induction ops with
    | nil => rfl
    | cons op rest ih => cases op <;> simp [callbackEvents, ih]
  rw [hcb] at hall
  simpa [sendDisplayEvents, sendDisplayEvents_eq_map] using hall

theorem SendPendingDisplayEvents_fifo_witness :
    (runHotplug Controller.initial
        [HotplugOp.added 2, HotplugOp.removed 2, HotplugOp.drain, HotplugOp.added 3,
          HotplugOp.added 4, HotplugOp.drain]).2 =
      [Effect.Serialize (Notification.DisplayAddedNotification 2),
       Effect.Serialize (Notification.DisplayRemovedNotification 2),
       Effect.Serialize (Notification.DisplayAddedNotification 3),
       Effect.Serialize (Notification.DisplayAddedNotification 4)] :=
  (SendPendingDisplayEvents_fifo Controller.initial
    [HotplugOp.added 2, HotplugOp.removed 2, HotplugOp.drain, HotplugOp.added 3,
      HotplugOp.added 4]).2.2.2 rfl

/-! ## Socket writer -/

theorem offered_eq (buf1 buf2 : List Nat) :
    (if buf2.length = 0 then buf1 else buf1 ++ buf2) = buf1 ++ buf2 := by
  split
  · rename_i h
    rw [List.length_eq_zero.mp h, List.append_nil]
  · rfl

/-- The invariant of the write loop: the accepted bytes are the leading part of the bytes still
to be sent, every call offers exactly what is still to be sent, and a success result means
everything was accepted. -/
theorem WriteLoop_invariant (script : List Step) :
    ∀ (buf1 buf2 : List Nat) (timeout_micros : Int) (was_blocked : Bool),
      acceptedBytes (WriteLoop script buf1 buf2 timeout_micros was_blocked).2 =
        (buf1 ++ buf2).take
          (acceptedBytes (WriteLoop script buf1 buf2 timeout_micros was_blocked).2).length ∧
      offersRemaining (buf1 ++ buf2)
        (WriteLoop script buf1 buf2 timeout_micros was_blocked).2 = true ∧
      (∀ result, (WriteLoop script buf1 buf2 timeout_micros was_blocked).1 =
          WriteEnd.returned result →
        (result = Result.SUCCESS ∨ result = Result.SUCCESS_AFTER_BLOCKING) →
        acceptedBytes (WriteLoop script buf1 buf2 timeout_micros was_blocked).2 =
          buf1 ++ buf2) := by
  induction script with
  | nil =>
    intro buf1 buf2 timeout_micros was_blocked
    simp [WriteLoop, acceptedBytes, offersRemaining]
  | cons step script ih =>
    intro buf1 buf2 timeout_micros was_blocked
    have hblocked : ∀ t : Int,
        acceptedBytes (({ offered := buf1 ++ buf2, accepted := [] } : WriteCall) ::
            (WriteLoop script buf1 buf2 t true).2) =
          (buf1 ++ buf2).take
            (acceptedBytes (({ offered := buf1 ++ buf2, accepted := [] } : WriteCall) ::
              (WriteLoop script buf1 buf2 t true).2)).length ∧
        offersRemaining (buf1 ++ buf2)
          (({ offered := buf1 ++ buf2, accepted := [] } : WriteCall) ::
            (WriteLoop script buf1 buf2 t true).2) = true ∧
        (∀ result, (WriteLoop script buf1 buf2 t true).1 = WriteEnd.returned result →
          (result = Result.SUCCESS ∨ result = Result.SUCCESS_AFTER_BLOCKING) →
          acceptedBytes (({ offered := buf1 ++ buf2, accepted := [] } : WriteCall) ::
            (WriteLoop script buf1 buf2 t true).2) = buf1 ++ buf2) := by
      intro t
      obtain ⟨i1, i2, i3⟩ := ih buf1 buf2 t true
      refine ⟨?_, ?_, ?_⟩
      · simpa [acceptedBytes] using i1
      · simpa [offersRemaining] using i2
      · intro result h1 h2
        simpa [acceptedBytes] using i3 result h1 h2
    rw [WriteLoop]
    simp only [offered_eq]
    cases hw : step.write with
    | failed errno =>
      cases errno with
      | EBADF => simp [acceptedBytes, offersRemaining]
      | EPIPE => simp [acceptedBytes, offersRemaining]
      | other => simp [acceptedBytes, offersRemaining]
      | EINTR =>
        simp only
        split
        · simp [acceptedBytes, offersRemaining]
        · split
          · simp [acceptedBytes, offersRemaining]
          · split
            · simp [acceptedBytes, offersRemaining]
            · exact hblocked _
      | EAGAIN =>
        simp only
        split
        · simp [acceptedBytes, offersRemaining]
        · split
          · simp [acceptedBytes, offersRemaining]
          · split
            · simp [acceptedBytes, offersRemaining]
            · exact hblocked _
    | accepted n =>
      simp only
      have hmin : min n (buf1.length + buf2.length) ≤ (buf1 ++ buf2).length := by
        simp [List.length_append]
      have htake : ((buf1 ++ buf2).take (min n (buf1.length + buf2.length))).length =
          min n (buf1.length + buf2.length) := by
        rw [List.length_take]
        omega
      generalize min n (buf1.length + buf2.length) = w at hmin htake
      split
      · rename_i hall
        have hfull : (buf1 ++ buf2).take w = buf1 ++ buf2 := by
          apply List.take_of_length_le
          simp [List.length_append, hall]
        simp [acceptedBytes, offersRemaining, hfull]
      · split
        · split
          · rename_i h1 h2 h3
            subst h3
            simp [acceptedBytes, offersRemaining]
          · rename_i h1 h2 h3
            obtain ⟨i1, i2, i3⟩ := ih (buf1.drop w) buf2 timeout_micros was_blocked
            have hdrop : (buf1 ++ buf2).drop w = buf1.drop w ++ buf2 :=
              List.drop_append_of_le_length (by omega)
            rw [← hdrop] at i1 i2 i3
            refine ⟨?_, ?_, ?_⟩
            · simp only [acceptedBytes, List.length_append, htake]
              rw [List.take_add, ← i1]
            · simp only [offersRemaining, htake, i2]
              simp
            · intro result hr hs
              simp only [acceptedBytes]
              rw [i3 result hr hs, List.take_append_drop]
        · rename_i h1 h2
          obtain ⟨i1, i2, i3⟩ := ih (buf2.drop (w - buf1.length)) [] timeout_micros was_blocked
          have hdrop : (buf1 ++ buf2).drop w = buf2.drop (w - buf1.length) ++ [] := by
            rw [List.append_nil, List.drop_append_eq_append_drop]
            have : buf1.drop w = [] := List.drop_of_length_le (by omega)
            rw [this, List.nil_append]
          rw [← hdrop] at i1 i2 i3
          refine ⟨?_, ?_, ?_⟩
          · simp only [acceptedBytes, List.length_append, htake]
            rw [List.take_add, ← i1]
          · simp only [offersRemaining, htake, i2]
            simp
          · intro result hr hs
            simp only [acceptedBytes]
            rw [i3 result hr hs, List.take_append_drop]

/-- C10: for every pair of buffers and every script of transport behaviour (partial writes,
would-block, interrupts, errors), the bytes accepted over all write calls of `Write`,
concatenated, are a leading part of buf1 ++ buf2; every call offers exactly the bytes of
buf1 ++ buf2 not yet accepted; and when `Write` returns SUCCESS or SUCCESS_AFTER_BLOCKING the
accepted bytes are exactly buf1 ++ buf2. -/
theorem Write_delivers_in_order (script : List Step) (buf1 buf2 : List Nat)
    (timeout_micros : Int) :
    (∃ rest, acceptedBytes (Write script buf1 buf2 timeout_micros).2 ++ rest = buf1 ++ buf2) ∧
    offersRemaining (buf1 ++ buf2) (Write script buf1 buf2 timeout_micros).2 = true ∧
    (((Write script buf1 buf2 timeout_micros).1 = WriteEnd.returned Result.SUCCESS ∨
        (Write script buf1 buf2 timeout_micros).1 =
          WriteEnd.returned Result.SUCCESS_AFTER_BLOCKING) →
      acceptedBytes (Write script buf1 buf2 timeout_micros).2 = buf1 ++ buf2) := by
  obtain ⟨h1, h2, h3⟩ := WriteLoop_invariant script buf1 buf2 timeout_micros false
  refine ⟨⟨(buf1 ++ buf2).drop (acceptedBytes (Write script buf1 buf2 timeout_micros).2).length,
    ?_⟩, h2, ?_⟩
  · unfold Write
    nth_rewrite 1 [h1]
    exact List.take_append_drop _ _
  · intro h
    rcases h with h | h
    · exact h3 _ h (Or.inl rfl)
    · exact h3 _ h (Or.inr rfl)

theorem Write_delivers_in_order_witness :
    acceptedBytes (Write
        [{ write := WriteOutcome.accepted 2, poll_ret := 0, poll_elapsed := 0 },
         { write := WriteOutcome.failed Errno.EAGAIN, poll_ret := 1, poll_elapsed := 5 },
         { write := WriteOutcome.accepted 2, poll_ret := 0, poll_elapsed := 0 },
         { write := WriteOutcome.accepted 9, poll_ret := 0, poll_elapsed := 0 }]
        [1, 2, 3] [4, 5, 6] 100).2 = [1, 2, 3] ++ [4, 5, 6] :=
  (Write_delivers_in_order
    [{ write := WriteOutcome.accepted 2, poll_ret := 0, poll_elapsed := 0 },
     { write := WriteOutcome.failed Errno.EAGAIN, poll_ret := 1, poll_elapsed := 5 },
     { write := WriteOutcome.accepted 2, poll_ret := 0, poll_elapsed := 0 },
     { write := WriteOutcome.accepted 9, poll_ret := 0, poll_elapsed := 0 }]
    [1, 2, 3] [4, 5, 6] 100).2.2 (Or.inr (by decide))

/-! ## Zero progress -/

/-- A write that accepts nothing while the first buffer still has bytes ends the process. -/
theorem WriteLoop_zero_progress (step : Step) (script : List Step) (buf1 buf2 : List Nat)
    (timeout_micros : Int) (was_blocked : Bool)
    (hstep : step.write = WriteOutcome.accepted 0) (hbuf : buf1 ≠ []) :
    (WriteLoop (step :: script) buf1 buf2 timeout_micros was_blocked).1 = WriteEnd.fatal := by
  have hlen : 0 < buf1.length := List.length_pos.mpr hbuf
  rw [WriteLoop]
  simp only [hstep]
  have h0 : min 0 (buf1.length + buf2.length) = 0 := Nat.zero_min _
  simp only [h0]
  have h1 : ¬ (0 = buf1.length + buf2.length) := by omega
  simp [h1, hlen]

/-- C12 (the code at the failing input): with an empty first buffer and the second buffer
[1, 2, 3], a write call that accepts zero bytes does not end in the fatal outcome; the loop
offers the same three bytes again, and when the transport then takes them `Write` returns
SUCCESS. -/
theorem Write_zero_progress_empty_first_buffer :
    Write
        [{ write := WriteOutcome.accepted 0, poll_ret := 0, poll_elapsed := 0 },
         { write := WriteOutcome.accepted 3, poll_ret := 0, poll_elapsed := 0 }]
        [] [1, 2, 3] 1000 =
      (WriteEnd.returned Result.SUCCESS,
        [{ offered := [1, 2, 3], accepted := [] },
         { offered := [1, 2, 3], accepted := [1, 2, 3] }]) := by
  decide

/-! ## Start and stop -/

/-- C14 (as stated, refuted): in the session left by `StartClipboardSync` with max length 0 and
text "x" the negotiated max length is 0, and after `StopClipboardSync`, called once or twice,
the last-known text is still "x", not empty. -/
theorem StopClipboardSync_keeps_text_when_stopped :
    controllerWithTextWhileStopped.max_synced_clipboard_length_ = 0 ∧
    (StopClipboardSync controllerWithTextWhileStopped).1.last_clipboard_text_ = [0x78] ∧
    (StopClipboardSync (StopClipboardSync controllerWithTextWhileStopped).1).1.last_clipboard_text_ =
      [0x78] := by
  decide

/-- C14 (amended): `Stop` and `StopClipboardSync` are idempotent on the session state: for
every session state, calling the operation twice in a row leaves the same state as calling it
once.  After `Stop` the stop flag is true; after `StopClipboardSync` the negotiated max length
is 0, and the last-known text is empty whenever the max length was non-zero (or the text
already empty) before the first call; the second `StopClipboardSync` makes no collaborator
call. -/
theorem Stop_StopClipboardSync_idempotent (c : Controller) :
    (Stop (Stop c).1).1 = (Stop c).1 ∧
    (Stop c).1.stopped = true ∧
    (StopClipboardSync (StopClipboardSync c).1).1 = (StopClipboardSync c).1 ∧
    (StopClipboardSync c).1.max_synced_clipboard_length_ = 0 ∧
    ((c.max_synced_clipboard_length_ ≠ 0 ∨ c.last_clipboard_text_ = []) →
      (StopClipboardSync c).1.last_clipboard_text_ = []) ∧
    (StopClipboardSync (StopClipboardSync c).1).2 = [] := by
  have hmax : (StopClipboardSync c).1.max_synced_clipboard_length_ = 0 := by
    simp only [StopClipboardSync]
    split
    · rfl
    · rename_i h
      exact not_not.mp h
  have hsecond : StopClipboardSync (StopClipboardSync c).1 = ((StopClipboardSync c).1, []) := by
    generalize StopClipboardSync c = r at hmax
    simp [StopClipboardSync, hmax]
  refine ⟨rfl, rfl, by rw [hsecond], hmax, ?_, by rw [hsecond]⟩
  intro h
  simp only [StopClipboardSync]
  split
  · rfl
  · rename_i hzero
    rcases h with h | h
    · exact absurd h hzero
    · exact h

theorem Stop_StopClipboardSync_idempotent_witness :
    (StopClipboardSync { Controller.initial with
      max_synced_clipboard_length_ := 100, last_clipboard_text_ := [0x78] }).1.last_clipboard_text_ =
      [] :=
  (Stop_StopClipboardSync_idempotent { Controller.initial with
    max_synced_clipboard_length_ := 100, last_clipboard_text_ := [0x78] }).2.2.2.2.1
      (Or.inl (by decide))

/-- C15 (the code at the failing input): over a session on a foldable device that is
initialized, starts the clipboard synchronization and is then stopped, the device state listener
ends up unregistered, but the display listener added by `Initialize` and the clipboard listener
added by `StartClipboardSync` are both still registered after `Stop`; the calls made by `Stop`
itself are `RemoveDeviceStateListener` and the reset of the UI settings. -/
theorem Stop_leaves_listeners_registered :
    isRegistered Listener.deviceState stoppedSessionCalls false = false ∧
    isRegistered Listener.display stoppedSessionCalls false = true ∧
    isRegistered Listener.clipboard stoppedSessionCalls false = true ∧
    (Stop (StartClipboardSync (Initialize Controller.initial false 0
        (deviceStateMarker ++ [0x7D] ++ deviceStateMarker ++ [0x7D]) 1).1
      { max_synced_length := 100, text := [0x78] }).1).2 =
      [Effect.RemoveDeviceStateListener, Effect.UiSettingsReset] := by
  decide

/-- C16: `StartClipboardSync` calls `SetText` with the text of the message exactly when that
text differs from the last-known text, and the last-known text is the text of the message
afterwards; it always sets the negotiated max length to the one of the message; and it adds the
clipboard listener exactly when the negotiated max length was 0 before the call. -/
theorem StartClipboardSync_spec (c : Controller) (message : StartClipboardSyncMessage) :
    (StartClipboardSync c message).2 =
      (if message.text ≠ c.last_clipboard_text_ then [Effect.SetText message.text] else []) ++
      (if c.max_synced_clipboard_length_ = 0 then [Effect.AddClipboardListener] else []) ∧
    (StartClipboardSync c message).1.last_clipboard_text_ = message.text ∧
    (StartClipboardSync c message).1.max_synced_clipboard_length_ = message.max_synced_length ∧
    (StartClipboardSync c message).1 =
      { c with
        last_clipboard_text_ := message.text
        max_synced_clipboard_length_ := message.max_synced_length } := by
  simp only [StartClipboardSync]
  by_cases h1 : message.text = c.last_clipboard_text_ <;>
    by_cases h2 : c.max_synced_clipboard_length_ = 0 <;>
    simp [h1, h2]

/-- C17 (as stated, refuted): after `StartClipboardSync` with max length 0 and text "x" on a
fresh session, `StopClipboardSync` makes no collaborator call: the last-known text is still "x"
and the clipboard listener added by the start is still registered. -/
theorem StopClipboardSync_after_start_with_zero :
    (StopClipboardSync controllerWithTextWhileStopped).2 = [] ∧
    (StopClipboardSync controllerWithTextWhileStopped).1.last_clipboard_text_ ≠ [] ∧
    isRegistered Listener.clipboard
      ((StartClipboardSync Controller.initial { max_synced_length := 0, text := [0x78] }).2 ++
        (StopClipboardSync controllerWithTextWhileStopped).2) false = true := by
  decide

/-- C17 (amended): for every session state with a non-zero negotiated max length,
`StopClipboardSync` sets the negotiated max length to 0, empties the last-known text and
removes the clipboard listener (its only collaborator call), changing nothing else; with a
negotiated max length of 0 it makes no collaborator call and leaves the state as it is. -/
theorem StopClipboardSync_clears (c : Controller) :
    (c.max_synced_clipboard_length_ ≠ 0 →
      StopClipboardSync c =
        ({ c with max_synced_clipboard_length_ := 0, last_clipboard_text_ := [] },
          [Effect.RemoveClipboardListener])) ∧
    (c.max_synced_clipboard_length_ = 0 → StopClipboardSync c = (c, [])) := by
  constructor <;> intro h <;> simp [StopClipboardSync, h]

theorem StopClipboardSync_clears_witness :
    StopClipboardSync { Controller.initial with
        max_synced_clipboard_length_ := 100, last_clipboard_text_ := [0x78] } =
      (Controller.initial, [Effect.RemoveClipboardListener]) ∧
    StopClipboardSync Controller.initial = (Controller.initial, []) :=
  ⟨(StopClipboardSync_clears { Controller.initial with
      max_synced_clipboard_length_ := 100, last_clipboard_text_ := [0x78] }).1 (by decide),
   (StopClipboardSync_clears Controller.initial).2 rfl⟩

/-! ## Source class, gesture start time and the calls after an UP -/

theorem Stamped_of_eq {source down_time start : Int} {s t : MotionState}
    (h : Stamped source down_time start s)
    (h1 : t.event.source = s.event.source)
    (h2 : t.event.down_time_millis = s.event.down_time_millis)
    (h3 : t.controller.motion_event_start_time_ = s.controller.motion_event_start_time_)
    (h4 : t.effects = s.effects) : Stamped source down_time start t := by
  obtain ⟨a, b, c, d⟩ := h
  exact ⟨h1.trans a, h2.trans b, h3.trans c, by rw [h4]; exact d⟩

theorem Stamped_InjectMotionEvent {source down_time start : Int} {s : MotionState}
    (h : Stamped source down_time start s) :
    Stamped source down_time start (InjectMotionEvent s) := by
  obtain ⟨a, b, c, d⟩ := h
  refine ⟨a, b, c, ?_⟩
  intro e he
  simp only [InjectMotionEvent, motionInjects_append, motionInjects, List.mem_append,
    List.mem_singleton] at he
  rcases he with he | he
  · exact d e he
  · subst he
    exact ⟨a, b⟩

theorem Stamped_downLoop {source down_time start : Int} (size : Nat) :
    ∀ (n i : Nat) (s : MotionState), Stamped source down_time start s →
      Stamped source down_time start (downLoop size n i s) := by
  intro n
  induction n with
  | zero =>
    intro i s h
    exact Stamped_of_eq h rfl rfl rfl rfl
  | succ n ih =>
    intro i s h
    rw [downLoop]
    simp only
    split
    · apply ih
      have h1 : Stamped source down_time start
          { s with event := { s.event with pointer_count := i } } :=
        Stamped_of_eq h rfl rfl rfl rfl
      exact Stamped_of_eq (Stamped_InjectMotionEvent h1) rfl rfl rfl rfl
    · exact Stamped_of_eq h rfl rfl rfl rfl

theorem Stamped_upLoop {source down_time start : Int} :
    ∀ (i : Nat) (s : MotionState), Stamped source down_time start s →
      Stamped source down_time start (upLoop i s) := by
  intro i
  induction i with
  | zero =>
    intro s h
    exact h
  | succ i ih =>
    intro s h
    rw [upLoop]
    split
    · apply ih
      have h1 : Stamped source down_time start
          { s with
            event := { s.event with
              action := actionWithIndex AMOTION_EVENT_ACTION_POINTER_UP i }
            controller := { s.controller with
              pointer_coordinates_ := modifyElement s.controller.pointer_coordinates_ i
                (fun coordinates => { coordinates with pressure := 0 }) } } :=
        Stamped_of_eq h rfl rfl rfl rfl
      exact Stamped_of_eq (Stamped_InjectMotionEvent h1) rfl rfl rfl rfl
    · exact h

theorem Stamped_injectEvents {source down_time start : Int} (message : MotionEventMessage)
    (s : MotionState) (h : Stamped source down_time start s) :
    Stamped source down_time start (injectEvents message s) := by
  simp only [injectEvents]
  apply Stamped_InjectMotionEvent
  split
  · split
    · exact Stamped_of_eq (Stamped_InjectMotionEvent h) rfl rfl rfl rfl
    · exact Stamped_downLoop _ _ _ _ h
  · split
    · split
      · have h1 : Stamped source down_time start
            { s with event := { s.event with
                action := AMOTION_EVENT_ACTION_BUTTON_RELEASE
                action_button := message.action_button } } :=
          Stamped_of_eq h rfl rfl rfl rfl
        exact Stamped_of_eq (Stamped_InjectMotionEvent h1) rfl rfl rfl rfl
      · exact Stamped_of_eq (Stamped_upLoop _ _ h) rfl rfl rfl rfl
    · exact h

theorem afterInject_controller (message : MotionEventMessage) (display_info : DisplayInfo)
    (key_now : Int) (s : MotionState) :
    (afterInject message display_info key_now s).controller = s.controller := by
  simp only [afterInject]
  split
  · split <;> rfl
  · rfl

/-- The state before the inject calls: source class of the message, down time and start time
as set by lines 310-323, no motion event injected yet. -/
theorem Stamped_stateBeforeInject (c : Controller) (now : Int) (display_info : DisplayInfo)
    (message : MotionEventMessage) :
    Stamped (eventSource message)
      (updateStartTime
        { controller := c,
          event :=
            { display_id := message.display_id, action := message.action,
              button_state := message.button_state, event_time_millis := now,
              down_time_millis := 0, source := 0, action_button := 0, pointer_count := 0 },
          effects := [] } message.action now).event.down_time_millis
      (updateStartTime
        { controller := c,
          event :=
            { display_id := message.display_id, action := message.action,
              button_state := message.button_state, event_time_millis := now,
              down_time_millis := 0, source := 0, action_button := 0, pointer_count := 0 },
          effects := [] } message.action now).controller.motion_event_start_time_
      (stateBeforeInject c now display_info message) := by
  simp only [stateBeforeInject]
  generalize hs0 : ({ controller := c, event := _, effects := [] } : MotionState) = s0
  obtain ⟨-, -, -, u4⟩ := updateStartTime_event s0 message.action now
  have h0 : motionInjects s0.effects = [] := by
    subst hs0
    rfl
  obtain ⟨f1, f2, f3⟩ := foldl_fillPointer message.action display_info message.pointers
    { updateStartTime s0 message.action now with
      event := { (updateStartTime s0 message.action now).event with
        source := eventSource message } }
  refine ⟨?_, ?_, ?_, ?_⟩
  · rw [f2]
  · rw [f2]
  · rw [f3]
  · rw [f1]
    simp only [u4, h0]
    intro e he
    simp at he

/-- C18: every motion event injected for a motion message has the source class mouse if and
only if the action is HOVER_MOVE or the action button is non-zero or the button state is
non-zero, and the source class stylus | touchscreen in every other case; on a valid display at
least one motion event is injected. -/
theorem ProcessMotionEvent_source (c : Controller) (now : Int) (display_info : DisplayInfo)
    (key_now : Int) (message : MotionEventMessage) :
    (∀ e ∈ motionInjects (ProcessMotionEvent c now display_info key_now message).2,
      (e.source = AINPUT_SOURCE_MOUSE ↔
        (message.action = AMOTION_EVENT_ACTION_HOVER_MOVE ∨ message.action_button ≠ 0 ∨
          message.button_state ≠ 0)) ∧
      (¬ (message.action = AMOTION_EVENT_ACTION_HOVER_MOVE ∨ message.action_button ≠ 0 ∨
          message.button_state ≠ 0) →
        e.source = Int.lor AINPUT_SOURCE_STYLUS AINPUT_SOURCE_TOUCHSCREEN)) ∧
    (display_info.IsValid = true →
      motionInjects (ProcessMotionEvent c now display_info key_now message).2 ≠ []) := by
  have hne : Int.lor AINPUT_SOURCE_STYLUS AINPUT_SOURCE_TOUCHSCREEN ≠ AINPUT_SOURCE_MOUSE := by
    decide
  have hsource : ∀ e : MotionEvent, e.source = eventSource message →
      (e.source = AINPUT_SOURCE_MOUSE ↔
        (message.action = AMOTION_EVENT_ACTION_HOVER_MOVE ∨ message.action_button ≠ 0 ∨
          message.button_state ≠ 0)) ∧
      (¬ (message.action = AMOTION_EVENT_ACTION_HOVER_MOVE ∨ message.action_button ≠ 0 ∨
          message.button_state ≠ 0) →
        e.source = Int.lor AINPUT_SOURCE_STYLUS AINPUT_SOURCE_TOUCHSCREEN) := by
    intro e he
    rw [he]
    unfold eventSource
    split
    · rename_i hcond
      exact ⟨⟨fun _ => hcond, fun _ => rfl⟩, fun h => absurd hcond h⟩
    · rename_i hcond
      exact ⟨⟨fun h => absurd h hne, fun h => absurd h hcond⟩, fun _ => rfl⟩
  by_cases hvalid : display_info.IsValid = true
  · rw [ProcessMotionEvent_valid c now display_info key_now message hvalid]
    simp only [motionInjects_afterInject]
    have hst := Stamped_injectEvents message _
      (Stamped_stateBeforeInject c now display_info message)
    refine ⟨fun e he => hsource e (hst.2.2.2 e he).1, fun _ => ?_⟩
    simp [injectEvents, InjectMotionEvent, motionInjects_append, motionInjects]
  · refine ⟨?_, fun h => absurd h hvalid⟩
    intro e he
    exfalso
    have hinv : display_info.IsValid = false := by
      cases hb : display_info.IsValid
      · rfl
      · exact absurd hb hvalid
    have hnone : motionInjects (ProcessMotionEvent c now display_info key_now message).2 = [] := by
      simp only [ProcessMotionEvent, hinv]
      generalize hs0 : ({ controller := c, event := _, effects := [] } : MotionState) = s0
      obtain ⟨-, -, -, u4⟩ := updateStartTime_event s0 message.action now
      subst hs0
      simpa [motionInjects] using u4
    rw [hnone] at he
    simp at he

theorem ProcessMotionEvent_source_witness :
    motionInjects (ProcessMotionEvent Controller.initial 100
        { NaturalSize := { width := 1080, height := 1920 }, rotation := 0, IsValid := true,
          IsOn := true } 100
        { pointers := [{ x := 10, y := 20, pointer_id := 0, axis_values := [] }],
          action := 2, display_id := 0, action_button := 0, button_state := 1 }).2 ≠ [] :=
  (ProcessMotionEvent_source Controller.initial 100
    { NaturalSize := { width := 1080, height := 1920 }, rotation := 0, IsValid := true,
      IsOn := true } 100
    { pointers := [{ x := 10, y := 20, pointer_id := 0, axis_values := [] }],
      action := 2, display_id := 0, action_button := 0, button_state := 1 }).2 rfl

/-- The start time kept by the controller after the call is the one set by lines 310-323,
whether or not the display is valid. -/
theorem ProcessMotionEvent_start_time (c : Controller) (now : Int) (display_info : DisplayInfo)
    (key_now : Int) (message : MotionEventMessage) :
    (ProcessMotionEvent c now display_info key_now message).1.motion_event_start_time_ =
      (updateStartTime
        { controller := c,
          event :=
            { display_id := message.display_id, action := message.action,
              button_state := message.button_state, event_time_millis := now,
              down_time_millis := 0, source := 0, action_button := 0, pointer_count := 0 },
          effects := [] } message.action now).controller.motion_event_start_time_ := by
  by_cases hvalid : display_info.IsValid = true
  · rw [ProcessMotionEvent_valid c now display_info key_now message hvalid]
    simp only [afterInject_controller]
    exact (Stamped_injectEvents message _
      (Stamped_stateBeforeInject c now display_info message)).2.2.1
  · have hinv : display_info.IsValid = false := by
      cases hb : display_info.IsValid
      · rfl
      · exact absurd hb hvalid
    simp [ProcessMotionEvent, hinv]

/-- C19: a HOVER_MOVE or SCROLL message leaves the gesture start time unchanged.  For every
other action, with a current time other than 0, the gesture start time after the call is 0 if
the action is UP and otherwise the non-zero gesture start (the current time on DOWN or when no
gesture was active, else the previous value); and every injected motion event carries that
gesture start as its down time, also when the action is UP. -/
theorem ProcessMotionEvent_gesture_start (c : Controller) (now : Int)
    (display_info : DisplayInfo) (key_now : Int) (message : MotionEventMessage)
    (hnow : now ≠ 0) :
    ((message.action = AMOTION_EVENT_ACTION_HOVER_MOVE ∨
        message.action = AMOTION_EVENT_ACTION_SCROLL) →
      (ProcessMotionEvent c now display_info key_now message).1.motion_event_start_time_ =
        c.motion_event_start_time_) ∧
    (¬ (message.action = AMOTION_EVENT_ACTION_HOVER_MOVE ∨
        message.action = AMOTION_EVENT_ACTION_SCROLL) →
      gestureStart c now message ≠ 0 ∧
      (message.action = AMOTION_EVENT_ACTION_UP →
        (ProcessMotionEvent c now display_info key_now message).1.motion_event_start_time_ =
          0) ∧
      (message.action ≠ AMOTION_EVENT_ACTION_UP →
        (ProcessMotionEvent c now display_info key_now message).1.motion_event_start_time_ =
          gestureStart c now message) ∧
      ∀ e ∈ motionInjects (ProcessMotionEvent c now display_info key_now message).2,
        e.down_time_millis = gestureStart c now message) := by
  have hstart := ProcessMotionEvent_start_time c now display_info key_now message
  constructor
  · intro h
    rw [hstart]
    have hno : ¬ (message.action ≠ AMOTION_EVENT_ACTION_HOVER_MOVE ∧
        message.action ≠ AMOTION_EVENT_ACTION_SCROLL) := by
      intro hh
      rcases h with h | h
      · exact hh.1 h
      · exact hh.2 h
    simp [updateStartTime, hno]
  · intro h
    have hyes : message.action ≠ AMOTION_EVENT_ACTION_HOVER_MOVE ∧
        message.action ≠ AMOTION_EVENT_ACTION_SCROLL :=
      ⟨fun hh => h (Or.inl hh), fun hh => h (Or.inr hh)⟩
    have hgs : gestureStart c now message =
        (if (if message.action = AMOTION_EVENT_ACTION_DOWN then now
            else c.motion_event_start_time_) = 0 then now
          else (if message.action = AMOTION_EVENT_ACTION_DOWN then now
            else c.motion_event_start_time_)) := by
      unfold gestureStart
      by_cases hd : message.action = AMOTION_EVENT_ACTION_DOWN
      · simp [hd, hnow]
      · by_cases hz : c.motion_event_start_time_ = 0
        · simp [hd, hz]
        · simp [hd, hz]
    have hnz : gestureStart c now message ≠ 0 := by
      unfold gestureStart
      split
      · exact hnow
      · rename_i hh
        exact fun hz => hh (Or.inr hz)
    refine ⟨hnz, ?_, ?_, ?_⟩
    · intro hup
      rw [hstart]
      simp only [updateStartTime]
      rw [if_pos hyes]
      simp only [hup, if_true]
    · intro hup
      rw [hstart, hgs]
      simp only [updateStartTime]
      rw [if_pos hyes]
      simp only [hup, if_false]
    · intro e he
      rw [hgs]
      by_cases hvalid : display_info.IsValid = true
      · rw [ProcessMotionEvent_valid c now display_info key_now message hvalid] at he
        simp only [motionInjects_afterInject] at he
        have hst := (Stamped_injectEvents message _
          (Stamped_stateBeforeInject c now display_info message)).2.2.2 e he
        rw [hst.2]
        simp only [updateStartTime]
        rw [if_pos hyes]
      · exfalso
        have hinv : display_info.IsValid = false := by
          cases hb : display_info.IsValid
          · rfl
          · exact absurd hb hvalid
        have hnone :
            motionInjects (ProcessMotionEvent c now display_info key_now message).2 = [] := by
          simp only [ProcessMotionEvent, hinv]
          generalize hs0 : ({ controller := c, event := _, effects := [] } : MotionState) = s0
          obtain ⟨-, -, -, u4⟩ := updateStartTime_event s0 message.action now
          subst hs0
          simpa [motionInjects] using u4
        rw [hnone] at he
        simp at he

theorem ProcessMotionEvent_gesture_start_witness :
    (ProcessMotionEvent { Controller.initial with motion_event_start_time_ := 50 } 100
        { NaturalSize := { width := 1080, height := 1920 }, rotation := 0, IsValid := true,
          IsOn := true } 100
        { pointers := [{ x := 10, y := 20, pointer_id := 0, axis_values := [] }],
          action := 1, display_id := 0, action_button := 0,
          button_state := 0 }).1.motion_event_start_time_ = 0 ∧
    (ProcessMotionEvent { Controller.initial with motion_event_start_time_ := 50 } 100
        { NaturalSize := { width := 1080, height := 1920 }, rotation := 0, IsValid := true,
          IsOn := true } 100
        { pointers := [{ x := 10, y := 20, pointer_id := 0, axis_values := [] }],
          action := 7, display_id := 0, action_button := 0,
          button_state := 0 }).1.motion_event_start_time_ = 50 :=
  ⟨((ProcessMotionEvent_gesture_start { Controller.initial with motion_event_start_time_ := 50 }
      100
      { NaturalSize := { width := 1080, height := 1920 }, rotation := 0, IsValid := true,
        IsOn := true } 100
      { pointers := [{ x := 10, y := 20, pointer_id := 0, axis_values := [] }],
        action := 1, display_id := 0, action_button := 0, button_state := 0 }
      (by decide)).2 (by decide)).2.1 rfl,
   (ProcessMotionEvent_gesture_start { Controller.initial with motion_event_start_time_ := 50 }
      100
      { NaturalSize := { width := 1080, height := 1920 }, rotation := 0, IsValid := true,
        IsOn := true } 100
      { pointers := [{ x := 10, y := 20, pointer_id := 0, axis_values := [] }],
        action := 7, display_id := 0, action_button := 0, button_state := 0 }
      (by decide)).1 (Or.inl rfl)⟩

theorem actionWithIndex_pointer_down_ne_up (i : Nat) :
    actionWithIndex AMOTION_EVENT_ACTION_POINTER_DOWN i ≠ AMOTION_EVENT_ACTION_UP := by
  have h1 : actionWithIndex AMOTION_EVENT_ACTION_POINTER_DOWN i =
      Int.ofNat (5 ||| (i <<< 8)) := rfl
  have h2 : 5 ||| (i <<< 8) = 256 * i + 5 := by
    rw [Nat.shiftLeft_eq, Nat.lor_comm, Nat.mul_comm]
    exact (Nat.mul_add_lt_is_or (i := 8) (by decide) i).symm
  rw [h1, h2]
  intro h
  have h3 : AMOTION_EVENT_ACTION_UP = Int.ofNat 1 := rfl
  rw [h3] at h
  have := Int.ofNat.inj h
  omega

/-- The action of the event after the pointer-down expansion is the action on entry or a
`POINTER_DOWN` transition. -/
theorem downLoop_action (size : Nat) :
    ∀ (n i : Nat) (s : MotionState),
      (downLoop size n i s).event.action = s.event.action ∨
      ∃ j, (downLoop size n i s).event.action =
        actionWithIndex AMOTION_EVENT_ACTION_POINTER_DOWN j := by
  intro n
  induction n with
  | zero =>
    intro i s
    exact Or.inl rfl
  | succ n ih =>
    intro i s
    rw [downLoop]
    simp only
    split
    · rcases ih (i + 1) _ with h | ⟨j, h⟩
      · exact Or.inr ⟨i, h⟩
      · exact Or.inr ⟨j, h⟩
    · exact Or.inl rfl

/-- The last inject call is made with an event whose action is UP exactly when the action of
the message is UP. -/
theorem injectEvents_action_up (message : MotionEventMessage) (s : MotionState)
    (hs : s.event.action = message.action) :
    (injectEvents message s).event.action = AMOTION_EVENT_ACTION_UP ↔
      message.action = AMOTION_EVENT_ACTION_UP := by
  have hne : AMOTION_EVENT_ACTION_DOWN ≠ AMOTION_EVENT_ACTION_UP := by decide
  have hpress : AMOTION_EVENT_ACTION_BUTTON_PRESS ≠ AMOTION_EVENT_ACTION_UP := by decide
  simp only [injectEvents, InjectMotionEvent]
  split
  · rename_i hdown
    have hnot : ¬ message.action = AMOTION_EVENT_ACTION_UP := by
      rw [hdown]
      exact hne
    split
    · exact ⟨fun h => absurd h hpress, fun h => absurd h hnot⟩
    · constructor
      · intro h
        exfalso
        rcases downLoop_action message.pointers.length message.pointers.length 1 s with
          h1 | ⟨j, h1⟩
        · rw [h1, hs, hdown] at h
          exact hne h
        · rw [h1] at h
          exact actionWithIndex_pointer_down_ne_up j h
      · intro h
        exact absurd h hnot
  · split
    · rename_i hup
      split
      · exact ⟨fun _ => hup, fun _ => rfl⟩
      · exact ⟨fun _ => hup, fun _ => rfl⟩
    · rename_i hup
      rw [hs]

theorem injectEvents_endsWithMotionInject (message : MotionEventMessage) (s : MotionState) :
    endsWithMotionInject (injectEvents message s).effects = true := by
  simp [injectEvents, InjectMotionEvent, endsWithMotionInject]

/-- C20: on a valid display the calls of `ProcessMotionEvent` are those up to and including the
last motion inject call, followed, exactly when the action of the message is UP, by
`SetVideoOrientation` for the display of the message with `CURRENT_VIDEO_ORIENTATION` and then,
exactly when the display is not on, by a WAKEUP key-down and a WAKEUP key-up; for every other
action nothing follows the last motion inject call. -/
theorem ProcessMotionEvent_after_up (c : Controller) (now : Int) (display_info : DisplayInfo)
    (key_now : Int) (message : MotionEventMessage)
    (hvalid : display_info.IsValid = true) :
    endsWithMotionInject
      (injectEvents message (stateBeforeInject c now display_info message)).effects = true ∧
    (ProcessMotionEvent c now display_info key_now message).2 =
      (injectEvents message (stateBeforeInject c now display_info message)).effects ++
        (if message.action = AMOTION_EVENT_ACTION_UP then
          Effect.SetVideoOrientation message.display_id CURRENT_VIDEO_ORIENTATION ::
            (if display_info.IsOn = true then [] else wakeUpKeyEvents key_now)
        else []) := by
  refine ⟨injectEvents_endsWithMotionInject _ _, ?_⟩
  rw [ProcessMotionEvent_valid c now display_info key_now message hvalid]
  have hiff := injectEvents_action_up message (stateBeforeInject c now display_info message)
    (stateBeforeInject_event c now display_info message).1
  simp only [afterInject]
  by_cases hup : message.action = AMOTION_EVENT_ACTION_UP
  · rw [if_pos (hiff.mpr hup), if_pos hup]
    cases hon : display_info.IsOn
    · simp [ProcessKeyboardEvent, wakeUpKeyEvents]
    · simp
  · rw [if_neg (fun h => hup (hiff.mp h)), if_neg hup]
    simp

theorem ProcessMotionEvent_after_up_witness :
    (ProcessMotionEvent Controller.initial 100
        { NaturalSize := { width := 1080, height := 1920 }, rotation := 0, IsValid := true,
          IsOn := false } 7
        { pointers := [{ x := 10, y := 20, pointer_id := 0, axis_values := [] }],
          action := 1, display_id := 3, action_button := 0, button_state := 0 }).2 =
      (injectEvents
          { pointers := [{ x := 10, y := 20, pointer_id := 0, axis_values := [] }],
            action := 1, display_id := 3, action_button := 0, button_state := 0 }
          (stateBeforeInject Controller.initial 100
            { NaturalSize := { width := 1080, height := 1920 }, rotation := 0, IsValid := true,
              IsOn := false }
            { pointers := [{ x := 10, y := 20, pointer_id := 0, axis_values := [] }],
              action := 1, display_id := 3, action_button := 0, button_state := 0 })).effects ++
        (if (1 : Int) = AMOTION_EVENT_ACTION_UP then
          Effect.SetVideoOrientation 3 CURRENT_VIDEO_ORIENTATION ::
            (if false = true then [] else wakeUpKeyEvents 7)
        else []) :=
  (ProcessMotionEvent_after_up Controller.initial 100
    { NaturalSize := { width := 1080, height := 1920 }, rotation := 0, IsValid := true,
      IsOn := false } 7
    { pointers := [{ x := 10, y := 20, pointer_id := 0, axis_values := [] }],
      action := 1, display_id := 3, action_button := 0, button_state := 0 } rfl).2

/-! ## Timeout budget of the socket writer -/

theorem cumulativeWait_nonneg (blocks : List Step) :
    ∀ remaining : Int, blockedThenReady remaining blocks = true → 0 ≤ cumulativeWait blocks := by
  induction blocks with
  | nil => intro _ _; simp [cumulativeWait]
  | cons step rest ih =>
    intro remaining h
    simp only [blockedThenReady, Bool.and_eq_true, decide_eq_true_eq] at h
    obtain ⟨⟨⟨⟨⟨-, -⟩, -⟩, h4⟩, -⟩, h6⟩ := h
    have := ih _ h6
    simp only [cumulativeWait, List.map_cons, List.sum_cons] at this ⊢
    omega

/-- The loop of `Write` over a blocked phase followed by a write call that accepts everything:
the result is a success exactly when the waits sum up to less than the timeout budget. -/
theorem WriteLoop_blocked_then_accepted (final : Step) (buf1 buf2 : List Nat) (n : Nat)
    (hfinal : final.write = WriteOutcome.accepted n)
    (hn : buf1.length + buf2.length ≤ n) (blocks : List Step) :
    ∀ (timeout_micros : Int) (was_blocked : Bool),
      0 < timeout_micros → timeout_micros < 2 ^ 31 →
      blockedThenReady timeout_micros blocks = true →
      (WriteLoop (blocks ++ [final]) buf1 buf2 timeout_micros was_blocked).1 =
        WriteEnd.returned
          (if cumulativeWait blocks < timeout_micros then
            (if was_blocked = true ∨ blocks.length ≠ 0 then Result.SUCCESS_AFTER_BLOCKING
              else Result.SUCCESS)
          else Result.TIMEOUT) := by
  induction blocks with
  | nil =>
    intro t wb ht _ _
    have hmin : min n (buf1.length + buf2.length) = buf1.length + buf2.length :=
      Nat.min_eq_right hn
    rw [List.nil_append, WriteLoop]
    simp only [hfinal, hmin, if_true]
    have hsum : cumulativeWait [] < t := by simpa [cumulativeWait] using ht
    rw [if_pos hsum]
    cases wb <;> simp
  | cons step rest ih =>
    intro t wb ht ht32 h
    simp only [blockedThenReady, Bool.and_eq_true, Bool.or_eq_true, beq_iff_eq, bne_iff_ne,
      decide_eq_true_eq] at h
    obtain ⟨⟨⟨⟨⟨hw, hret⟩, hzero⟩, hd0⟩, hd32⟩, hrest⟩ := h
    have hrestnn := cumulativeWait_nonneg rest _ hrest
    have hsum : cumulativeWait (step :: rest) = step.poll_elapsed + cumulativeWait rest := by
      simp [cumulativeWait]
    have hwrap : wrapInt32 (t - step.poll_elapsed) = t - step.poll_elapsed := by
      apply wrapInt32_of_IsInt32
      unfold IsInt32
      constructor <;> omega
    have hloop : (WriteLoop ((step :: rest) ++ [final]) buf1 buf2 t wb).1 =
        (if step.poll_ret < 0 then WriteEnd.fatal
          else if step.poll_ret = 0 then WriteEnd.returned Result.TIMEOUT
          else if t - step.poll_elapsed ≤ 0 then WriteEnd.returned Result.TIMEOUT
          else (WriteLoop (rest ++ [final]) buf1 buf2 (t - step.poll_elapsed) true).1) := by
      rw [List.cons_append, WriteLoop]
      rcases hw with hw | hw
      · simp only [hw, hwrap]
        split
        · rfl
        · split
          · rfl
          · split <;> rfl
      · simp only [hw, hwrap]
        split
        · rfl
        · split
          · rfl
          · split <;> rfl
    have hnotneg : ¬ (step.poll_ret < 0) := by omega
    rw [hloop, hsum, if_neg hnotneg]
    by_cases hz : step.poll_ret = 0
    · have hge : t ≤ step.poll_elapsed := by
        rcases hzero with h1 | h1
        · exact absurd hz h1
        · exact h1
      have h2 : ¬ (step.poll_elapsed + cumulativeWait rest < t) := by omega
      rw [if_pos hz, if_neg h2]
    · rw [if_neg hz]
      by_cases hle : t - step.poll_elapsed ≤ 0
      · have h2 : ¬ (step.poll_elapsed + cumulativeWait rest < t) := by omega
        rw [if_pos hle, if_neg h2]
      · rw [if_neg hle, ih (t - step.poll_elapsed) true (by omega) (by omega) hrest]
        by_cases hlt : cumulativeWait rest < t - step.poll_elapsed
        · have h2 : step.poll_elapsed + cumulativeWait rest < t := by omega
          simp [hlt, h2]
        · have h2 : ¬ (step.poll_elapsed + cumulativeWait rest < t) := by omega
          simp [hlt, h2]

/-- The timeout is consulted only after a would-block or interrupt: with timeout 0 and a
transport that never blocks (K = 0) and accepts all bytes, `Write` returns SUCCESS, although the
cumulative wait, 0, is not under the timeout. -/
theorem Write_zero_timeout_succeeds :
    (Write [{ write := WriteOutcome.accepted 3, poll_ret := 0, poll_elapsed := 0 }]
      [1, 2] [3] 0).1 = WriteEnd.returned Result.SUCCESS ∧
    ¬ (cumulativeWait [] < (0 : Int)) := by
  decide

/-- The result of `Write` in terms of the measured waits, whatever their lengths: for a timeout T
with 0 < T < 2^31 and a transport that reports would-block or interrupt K times, each followed
by a readiness wait of measured duration d_i (not negative, fitting an `int`, `poll` not failing
and reporting a timeout only after a wait of at least the remaining budget), and then accepts
all bytes, `Write` returns a success result (SUCCESS when
K = 0, SUCCESS_AFTER_BLOCKING when K ≥ 1) if the cumulative wait d_1 + ... + d_K is under T and
TIMEOUT otherwise; the result depends on K, the d_i and T only. -/
theorem Write_blocked_then_accepted (blocks : List Step) (final : Step)
    (buf1 buf2 : List Nat) (n : Nat) (timeout_micros : Int)
    (hfinal : final.write = WriteOutcome.accepted n)
    (hn : buf1.length + buf2.length ≤ n)
    (hpos : 0 < timeout_micros) (hint : timeout_micros < 2 ^ 31)
    (hblocks : blockedThenReady timeout_micros blocks = true) :
    (Write (blocks ++ [final]) buf1 buf2 timeout_micros).1 =
      WriteEnd.returned
        (if cumulativeWait blocks < timeout_micros then
          (if blocks.length = 0 then Result.SUCCESS else Result.SUCCESS_AFTER_BLOCKING)
        else Result.TIMEOUT) := by
  unfold Write
  rw [WriteLoop_blocked_then_accepted final buf1 buf2 n hfinal hn blocks timeout_micros false
    hpos hint hblocks]
  by_cases hk : blocks.length = 0 <;> simp [hk]

theorem Write_blocked_then_accepted_witness :
    (Write
        ([{ write := WriteOutcome.failed Errno.EAGAIN, poll_ret := 1, poll_elapsed := 40 },
          { write := WriteOutcome.failed Errno.EINTR, poll_ret := 1, poll_elapsed := 50 }] ++
          [{ write := WriteOutcome.accepted 3, poll_ret := 0, poll_elapsed := 0 }])
        [1, 2] [3] 100).1 =
      WriteEnd.returned
        (if cumulativeWait
            [{ write := WriteOutcome.failed Errno.EAGAIN, poll_ret := 1, poll_elapsed := 40 },
             { write := WriteOutcome.failed Errno.EINTR, poll_ret := 1, poll_elapsed := 50 }] <
            100 then
          (if ([{ write := WriteOutcome.failed Errno.EAGAIN, poll_ret := 1, poll_elapsed := 40 },
             { write := WriteOutcome.failed Errno.EINTR, poll_ret := 1,
               poll_elapsed := 50 }] : List Step).length = 0
            then Result.SUCCESS else Result.SUCCESS_AFTER_BLOCKING)
        else Result.TIMEOUT) :=
  Write_blocked_then_accepted
    [{ write := WriteOutcome.failed Errno.EAGAIN, poll_ret := 1, poll_elapsed := 40 },
     { write := WriteOutcome.failed Errno.EINTR, poll_ret := 1, poll_elapsed := 50 }]
    { write := WriteOutcome.accepted 3, poll_ret := 0, poll_elapsed := 0 }
    [1, 2] [3] 3 100 rfl (by decide) (by decide) (by decide) (by decide)

/-- The timeout argument of the `poll` call that follows a would-block or interrupt is the
remaining budget, which is a number of microseconds. -/
theorem WriteLoop_poll_timeout (step : Step) (script : List Step) (buf1 buf2 : List Nat)
    (timeout_micros : Int) (was_blocked : Bool)
    (hstep : step.write = WriteOutcome.failed Errno.EINTR ∨
      step.write = WriteOutcome.failed Errno.EAGAIN) :
    ((WriteLoop (step :: script) buf1 buf2 timeout_micros was_blocked).2.map
      (fun call => call.poll_timeout)).head? = some (some timeout_micros) := by
  rw [WriteLoop]
  rcases hstep with h | h <;>
    · simp only [h]
      split
      · rfl
      · split
        · rfl
        · split <;> rfl

/-- C11 (the code at the failing input): with a timeout of 1000 microseconds and a transport
that reports would-block once, `Write` passes 1000 as the timeout argument of `poll`, which
`poll` takes as milliseconds.  A readiness wait of 500000 microseconds is then within the limit
given to `poll` although it is far above the remaining budget of 1000 microseconds, and a `poll`
that runs into its limit returns only after 1000000 microseconds; `Write` returns TIMEOUT in
both cases, after the wait. -/
theorem Write_poll_timeout_in_micros :
    Write
        [{ write := WriteOutcome.failed Errno.EAGAIN, poll_ret := 1, poll_elapsed := 500000 },
         { write := WriteOutcome.accepted 3, poll_ret := 0, poll_elapsed := 0 }]
        [1, 2] [3] 1000 =
      (WriteEnd.returned Result.TIMEOUT,
        [{ offered := [1, 2, 3], accepted := [], poll_timeout := some 1000 }]) ∧
    pollMayWait 1000 500000 = true ∧
    ¬ ((500000 : Int) ≤ 1000) ∧
    Write
        [{ write := WriteOutcome.failed Errno.EAGAIN, poll_ret := 0, poll_elapsed := 1000000 }]
        [1, 2] [3] 1000 =
      (WriteEnd.returned Result.TIMEOUT,
        [{ offered := [1, 2, 3], accepted := [], poll_timeout := some 1000 }]) ∧
    pollMayWait 1000 1000000 = true := by
  decide

/-! ## The stop flag and the device state listener -/

theorem sessionPart_foldl_fillPointer (action : Int) (display_info : DisplayInfo)
    (pointers : List Pointer) :
    ∀ s : MotionState,
      sessionPart (pointers.foldl (fillPointer action display_info) s).controller =
        sessionPart s.controller := by
  induction pointers with
  | nil => intro s; rfl
  | cons p rest ih =>
    intro s
    rw [List.foldl_cons, ih]
    rfl

theorem sessionPart_updateStartTime (s : MotionState) (action now : Int) :
    sessionPart (updateStartTime s action now).controller = sessionPart s.controller := by
  simp only [updateStartTime]
  split <;> rfl

theorem sessionPart_downLoop (size : Nat) :
    ∀ (n i : Nat) (s : MotionState),
      sessionPart (downLoop size n i s).controller = sessionPart s.controller := by
  intro n
  induction n with
  | zero => intro i s; rfl
  | succ n ih =>
    intro i s
    rw [downLoop]
    simp only
    split
    · rw [ih]
      rfl
    · rfl

theorem sessionPart_upLoop :
    ∀ (i : Nat) (s : MotionState),
      sessionPart (upLoop i s).controller = sessionPart s.controller := by
  intro i
  induction i with
  | zero => intro s; rfl
  | succ i ih =>
    intro s
    rw [upLoop]
    split
    · rw [ih]
      rfl
    · rfl

theorem sessionPart_injectEvents (message : MotionEventMessage) (s : MotionState) :
    sessionPart (injectEvents message s).controller = sessionPart s.controller := by
  simp only [injectEvents, InjectMotionEvent]
  split
  · split
    · rfl
    · exact sessionPart_downLoop _ _ _ _
  · split
    · split
      · rfl
      · exact sessionPart_upLoop _ _
    · rfl

/-- `ProcessMotionEvent` writes no field of the controller other than the pointer arrays and
the gesture start time. -/
theorem sessionPart_ProcessMotionEvent (c : Controller) (now : Int)
    (display_info : DisplayInfo) (key_now : Int) (message : MotionEventMessage) :
    sessionPart (ProcessMotionEvent c now display_info key_now message).1 = sessionPart c := by
  by_cases hvalid : display_info.IsValid = true
  · rw [ProcessMotionEvent_valid c now display_info key_now message hvalid]
    simp only [afterInject_controller, sessionPart_injectEvents, stateBeforeInject,
      sessionPart_foldl_fillPointer]
    exact sessionPart_updateStartTime _ _ _
  · have hinv : display_info.IsValid = false := by
      cases hb : display_info.IsValid
      · rfl
      · exact absurd hb hvalid
    simp only [ProcessMotionEvent, hinv]
    exact sessionPart_updateStartTime _ _ _

/-- No call other than `Stop` writes the stop flag, and `Stop` sets it; no call writes the flag
that tells whether the device supports multiple states. -/
theorem applyOp_flags (c : Controller) (op : ControllerOp) :
    ((applyOp c op).1.stopped = c.stopped ∨ (applyOp c op).1.stopped = true) ∧
    (applyOp c op).1.device_supports_multiple_states_ = c.device_supports_multiple_states_ := by
  cases op with
  | ProcessMotionEvent now display_info key_now message =>
    have h := sessionPart_ProcessMotionEvent c now display_info key_now message
    have h1 : (sessionPart (ProcessMotionEvent c now display_info key_now message).1).stopped =
        (sessionPart c).stopped := by rw [h]
    have h2 : (sessionPart (ProcessMotionEvent c now display_info key_now
        message).1).device_supports_multiple_states_ =
        (sessionPart c).device_supports_multiple_states_ := by rw [h]
    exact ⟨Or.inl h1, h2⟩
  | StartClipboardSync message =>
    simp only [applyOp, StartClipboardSync]
    split <;> split <;> exact ⟨Or.inl rfl, rfl⟩
  | StopClipboardSync =>
    simp only [applyOp, StopClipboardSync]
    split <;> exact ⟨Or.inl rfl, rfl⟩
  | SendClipboardChangedNotification clipboard =>
    simp only [applyOp, SendClipboardChangedNotification]
    split
    · exact ⟨Or.inl rfl, rfl⟩
    · split
      · exact ⟨Or.inl rfl, rfl⟩
      · split <;> exact ⟨Or.inl rfl, rfl⟩
  | OnDeviceStateChanged device_state =>
    simp only [applyOp, OnDeviceStateChanged]
    split <;> exact ⟨Or.inl rfl, rfl⟩
  | SendDeviceStateNotification =>
    simp only [applyOp, SendDeviceStateNotification]
    split <;> exact ⟨Or.inl rfl, rfl⟩
  | Stop => exact ⟨Or.inr rfl, rfl⟩
  | _ => exact ⟨Or.inl rfl, rfl⟩

theorem runOps_flags (ops : List ControllerOp) :
    ∀ c : Controller,
      (c.stopped = true → (runOps c ops).1.stopped = true) ∧
      (runOps c ops).1.device_supports_multiple_states_ =
        c.device_supports_multiple_states_ := by
  induction ops with
  | nil => intro c; exact ⟨fun h => h, rfl⟩
  | cons op rest ih =>
    intro c
    obtain ⟨h1, h2⟩ := applyOp_flags c op
    obtain ⟨i1, i2⟩ := ih (applyOp c op).1
    refine ⟨fun hs => i1 ?_, by simp only [runOps]; rw [i2, h2]⟩
    rcases h1 with h1 | h1
    · rw [h1]
      exact hs
    · exact h1

theorem Initialize_device_state_listener (c : Controller) (start_video_stream : Bool)
    (key_now : Int) (states_text : List Nat) (device_state : Int)
    (hfresh : c.device_supports_multiple_states_ = false) :
    (Effect.AddDeviceStateListener ∈
        (Initialize c start_video_stream key_now states_text device_state).2 ↔
      ContainsMultipleDeviceStates states_text = true) ∧
    (Initialize c start_video_stream key_now states_text
        device_state).1.device_supports_multiple_states_ =
      ContainsMultipleDeviceStates states_text := by
  have hwake : Effect.AddDeviceStateListener ∉
      (if start_video_stream = true then WakeUpDevice key_now else []) := by
    cases start_video_stream <;> simp [WakeUpDevice, ProcessKeyboardEvent, ACTION_DOWN_AND_UP]
  cases hmulti : ContainsMultipleDeviceStates states_text
  · simp only [Initialize, hmulti]
    refine ⟨?_, hfresh⟩
    simp [List.mem_append, hwake]
  · simp only [Initialize, hmulti]
    refine ⟨?_, rfl⟩
    simp [List.mem_append]

/-- What `Stop` does do: on a controller that is initialized and then receives any sequence of
calls, `Stop` calls `RemoveDeviceStateListener` exactly when `Initialize` had called
`AddDeviceStateListener`; the stop flag is true after `Stop`, and it is still true after any
further sequence of calls. -/
theorem Stop_unregisters_device_state_listener (c : Controller) (start_video_stream : Bool)
    (key_now : Int) (states_text : List Nat) (device_state : Int)
    (ops later : List ControllerOp)
    (hfresh : c.device_supports_multiple_states_ = false) :
    (Effect.AddDeviceStateListener ∈
        (Initialize c start_video_stream key_now states_text device_state).2 ↔
      Effect.RemoveDeviceStateListener ∈
        (Stop (runOps (Initialize c start_video_stream key_now states_text device_state).1
          ops).1).2) ∧
    (Stop (runOps (Initialize c start_video_stream key_now states_text device_state).1
      ops).1).1.stopped = true ∧
    (runOps (Stop (runOps (Initialize c start_video_stream key_now states_text device_state).1
      ops).1).1 later).1.stopped = true := by
  obtain ⟨hadd, hflag⟩ :=
    Initialize_device_state_listener c start_video_stream key_now states_text device_state hfresh
  have hkept := (runOps_flags ops
    (Initialize c start_video_stream key_now states_text device_state).1).2
  refine ⟨?_, rfl, (runOps_flags later _).1 rfl⟩
  rw [hadd, ← hflag, ← hkept]
  generalize (runOps (Initialize c start_video_stream key_now states_text device_state).1
    ops).1 = d
  cases hd : d.device_supports_multiple_states_ <;> simp [Stop, hd]

theorem Stop_unregisters_device_state_listener_witness :
    (Stop (runOps (Initialize Controller.initial false 0
        (deviceStateMarker ++ [0x7D] ++ deviceStateMarker ++ [0x7D]) 1).1
      [ControllerOp.OnDeviceStateChanged 2, ControllerOp.SendDeviceStateNotification]).1).1.stopped =
      true ∧
    (runOps (Stop (runOps (Initialize Controller.initial false 0
        (deviceStateMarker ++ [0x7D] ++ deviceStateMarker ++ [0x7D]) 1).1
      [ControllerOp.OnDeviceStateChanged 2, ControllerOp.SendDeviceStateNotification]).1).1
      [ControllerOp.StartClipboardSync { max_synced_length := 5, text := [] }]).1.stopped =
      true :=
  (Stop_unregisters_device_state_listener Controller.initial false 0
    (deviceStateMarker ++ [0x7D] ++ deviceStateMarker ++ [0x7D]) 1
    [ControllerOp.OnDeviceStateChanged 2, ControllerOp.SendDeviceStateNotification]
    [ControllerOp.StartClipboardSync { max_synced_length := 5, text := [] }] rfl).2

/-! ## Validation of commands -/

/-- C21: set-orientation forwards the orientation to the video streamer exactly when
0 ≤ orientation ≤ 3; set-max-resolution forwards exactly when width and height are both
positive; start-video starts the stream and then wakes the device (WAKEUP key-down and key-up)
exactly when width and height are both positive; otherwise the handler makes no collaborator
call; none of the three handlers changes the controller. -/
theorem invalid_command_is_no_op (c : Controller) (key_now : Int)
    (orientation : SetDeviceOrientationMessage) (resolution : SetMaxVideoResolutionMessage)
    (start : StartVideoStreamMessage) :
    ProcessSetDeviceOrientation orientation =
      (if 0 ≤ orientation.orientation ∧ orientation.orientation ≤ 3 then
        [Effect.SetVideoOrientation PRIMARY_DISPLAY_ID orientation.orientation]
      else []) ∧
    ProcessSetMaxVideoResolution resolution =
      (if resolution.max_video_size.width > 0 ∧ resolution.max_video_size.height > 0 then
        [Effect.SetMaxVideoResolution resolution.display_id resolution.max_video_size]
      else []) ∧
    StartVideoStream key_now start =
      (if start.max_video_size.width > 0 ∧ start.max_video_size.height > 0 then
        Effect.StartVideoStream start.display_id start.max_video_size ::
          wakeUpKeyEvents key_now
      else []) ∧
    (applyOp c (ControllerOp.ProcessSetDeviceOrientation orientation)).1 = c ∧
    (applyOp c (ControllerOp.ProcessSetMaxVideoResolution resolution)).1 = c ∧
    (applyOp c (ControllerOp.StartVideoStream key_now start)).1 = c := by
  refine ⟨?_, ?_, ?_, rfl, rfl, rfl⟩
  · simp only [ProcessSetDeviceOrientation]
    by_cases h : 0 ≤ orientation.orientation ∧ orientation.orientation ≤ 3
    · have h2 : ¬ (orientation.orientation < 0 ∨ orientation.orientation ≥ 4) := by omega
      rw [if_neg h2, if_pos h]
    · have h2 : orientation.orientation < 0 ∨ orientation.orientation ≥ 4 := by omega
      rw [if_pos h2, if_neg h]
  · simp only [ProcessSetMaxVideoResolution, CheckVideoSize, Bool.and_eq_true,
      decide_eq_true_eq]
  · simp only [StartVideoStream, CheckVideoSize, Bool.and_eq_true, decide_eq_true_eq]
    split
    · simp [WakeUpDevice, ProcessKeyboardEvent, wakeUpKeyEvents]
    · rfl

/-! ## Receive loop -/

theorem written_SendDueNotifications_stopped (c : Controller) (clipboard : List Nat)
    (h : c.stopped = true) : SendDueNotifications c clipboard = (c, []) := by
  simp [SendDueNotifications, h]

/-- C22: in an iteration of the receive loop that starts with the stop flag set, the loop
thread writes no notification, does not pass the message to `ProcessMessage` and leaves the
controller as the other threads left it; once the kind tag has been read, the message is
decoded from the input whether or not the stop flag is set, so the input left unread is the one
after the message; and a message is passed to `ProcessMessage` only in an iteration that starts
with the stop flag clear and in which it is still clear after the message has been decoded. -/
theorem RunIteration_stopped {M : Type} (stream : InputStream M)
    (process : Controller → M → Controller × List Effect) (c : Controller)
    (clipboard : List Nat) (foreign : List ControllerOp) (input : List Nat) :
    (c.stopped = true →
      written (RunIteration stream process c clipboard foreign input).effects = [] ∧
      (RunIteration stream process c clipboard foreign input).dispatched = none ∧
      (RunIteration stream process c clipboard foreign input).controller =
        (runOps c foreign).1) ∧
    (∀ message_type rest message rest2,
      stream.ReadInt32 input = ReadResult.ok (message_type, rest) →
      stream.Deserialize message_type rest = ReadResult.ok (message, rest2) →
      (RunIteration stream process c clipboard foreign input).input = rest2 ∧
      (RunIteration stream process c clipboard foreign input).ended = none) ∧
    (∀ message,
      (RunIteration stream process c clipboard foreign input).dispatched = some message →
      c.stopped = false ∧
      (runOps (SendDueNotifications c clipboard).1 foreign).1.stopped = false) := by
  refine ⟨?_, ?_, ?_⟩
  · intro hstopped
    have hdue := written_SendDueNotifications_stopped c clipboard hstopped
    have hkeep := (runOps_flags foreign c).1 hstopped
    simp only [RunIteration, hdue]
    cases hread : stream.ReadInt32 input with
    | IoTimeout => simp [written]
    | EndOfFile => simp [written]
    | IoException => simp [written]
    | ok value =>
      obtain ⟨message_type, rest⟩ := value
      cases hdecode : stream.Deserialize message_type rest with
      | IoTimeout => simp [written, hdecode]
      | EndOfFile => simp [written, hdecode]
      | IoException => simp [written, hdecode]
      | ok decoded =>
        obtain ⟨message, rest2⟩ := decoded
        simp [written, hdecode, hkeep]
  · intro message_type rest message rest2 hread hdecode
    simp only [RunIteration, hread, hdecode]
    split <;> exact ⟨rfl, rfl⟩
  · intro message hdispatched
    have hflag : (runOps (SendDueNotifications c clipboard).1 foreign).1.stopped = false := by
      cases hf : (runOps (SendDueNotifications c clipboard).1 foreign).1.stopped
      · rfl
      · exfalso
        simp only [RunIteration] at hdispatched
        cases hread : stream.ReadInt32 input with
        | IoTimeout => simp [hread] at hdispatched
        | EndOfFile => simp [hread] at hdispatched
        | IoException => simp [hread] at hdispatched
        | ok value =>
          obtain ⟨message_type, rest⟩ := value
          cases hdecode : stream.Deserialize message_type rest with
          | IoTimeout => simp [hread, hdecode] at hdispatched
          | EndOfFile => simp [hread, hdecode] at hdispatched
          | IoException => simp [hread, hdecode] at hdispatched
          | ok decoded =>
            obtain ⟨message2, rest2⟩ := decoded
            simp [hread, hdecode, hf] at hdispatched
    refine ⟨?_, hflag⟩
    cases hc : c.stopped
    · rfl
    · exfalso
      have hdue := written_SendDueNotifications_stopped c clipboard hc
      rw [hdue] at hflag
      have := (runOps_flags foreign c).1 hc
      rw [this] at hflag
      cases hflag

theorem RunIteration_stopped_witness :
    written (RunIteration twoByteStream (fun c _ => (c, []))
        { Controller.initial with
          stopped := true, max_synced_clipboard_length_ := 10, clipboard_changed_ := true,
          device_supports_multiple_states_ := true, device_state_ := 3,
          pending_display_events_ := [{ display_id := 2, type := DisplayEventType.ADDED }] }
        [0x61] [] [4, 1, 9]).effects = [] ∧
    (RunIteration twoByteStream (fun c _ => (c, []))
        { Controller.initial with
          stopped := true, max_synced_clipboard_length_ := 10, clipboard_changed_ := true,
          device_supports_multiple_states_ := true, device_state_ := 3,
          pending_display_events_ := [{ display_id := 2, type := DisplayEventType.ADDED }] }
        [0x61] [] [4, 1, 9]).input = [9] :=
  ⟨((RunIteration_stopped twoByteStream (fun c _ => (c, []))
      { Controller.initial with
        stopped := true, max_synced_clipboard_length_ := 10, clipboard_changed_ := true,
        device_supports_multiple_states_ := true, device_state_ := 3,
        pending_display_events_ := [{ display_id := 2, type := DisplayEventType.ADDED }] }
      [0x61] [] [4, 1, 9]).1 rfl).1,
   ((RunIteration_stopped twoByteStream (fun c _ => (c, []))
      { Controller.initial with
        stopped := true, max_synced_clipboard_length_ := 10, clipboard_changed_ := true,
        device_supports_multiple_states_ := true, device_state_ := 3,
        pending_display_events_ := [{ display_id := 2, type := DisplayEventType.ADDED }] }
      [0x61] [] [4, 1, 9]).2.1 4 [1, 9] 1 [9] rfl rfl).1⟩

/-! ## Posture notification at start-up -/

theorem postureNotifications_append (a b : List Effect) :
    postureNotifications (a ++ b) = postureNotifications a ++ postureNotifications b := by
  induction a with
  | nil => rfl
  | cons e rest ih =>
    cases e with
    | Serialize message =>
      cases message <;> simp [postureNotifications, ih]
    | _ => simp [postureNotifications, ih]

theorem postureNotifications_sendDisplayEvents (events : List DisplayEvent) :
    postureNotifications (sendDisplayEvents events) = [] := by
  induction events with
  | nil => rfl
  | cons event rest ih =>
    obtain ⟨id, type⟩ := event
    cases type <;> simp [sendDisplayEvents, postureNotifications, ih]

theorem SendClipboardChangedNotification_posture (c : Controller) (clipboard : List Nat) :
    postureNotifications (SendClipboardChangedNotification c clipboard).2 = [] ∧
    (SendClipboardChangedNotification c clipboard).1.device_supports_multiple_states_ =
      c.device_supports_multiple_states_ ∧
    (SendClipboardChangedNotification c clipboard).1.device_state_ = c.device_state_ ∧
    (SendClipboardChangedNotification c clipboard).1.previous_device_state_ =
      c.previous_device_state_ := by
  simp only [SendClipboardChangedNotification]
  split
  · simp [postureNotifications]
  · split
    · simp [postureNotifications]
    · split <;> simp [postureNotifications]

/-- The posture notification of the first iteration for every start-up state: on a device that
supports multiple device states, when the controller is not stopped and no posture notification
has been sent yet (`previous_device_state_` has its initial value -1), the notification step of
the first iteration of the receive loop after `Initialize` writes exactly one
`DeviceStateNotification`, carrying the state `s` reported at start-up, for every `s` other than
-1, and writes none if `s` is -1. -/
theorem SendDueNotifications_after_Initialize (c : Controller) (start_video_stream : Bool)
    (key_now : Int) (states_text clipboard : List Nat) (s : Int)
    (hrunning : c.stopped = false) (hprevious : c.previous_device_state_ = -1)
    (hmulti : ContainsMultipleDeviceStates states_text = true) :
    postureNotifications (SendDueNotifications
      (Initialize c start_video_stream key_now states_text s).1 clipboard).2 =
      if s ≠ -1 then [s] else [] := by
  have hstopped : (Initialize c start_video_stream key_now states_text s).1.stopped = false := by
    simp [Initialize, hmulti, hrunning]
  have hsupports :
      (Initialize c start_video_stream key_now states_text s).1.device_supports_multiple_states_ =
        true := by
    simp [Initialize, hmulti]
  have hstate : (Initialize c start_video_stream key_now states_text s).1.device_state_ = s := by
    simp [Initialize, hmulti]
  have hprev :
      (Initialize c start_video_stream key_now states_text s).1.previous_device_state_ = -1 := by
    simp [Initialize, hmulti, hprevious]
  generalize (Initialize c start_video_stream key_now states_text s).1 = c2 at *
  have hclip := SendClipboardChangedNotification_posture c2 clipboard
  simp only [SendDueNotifications, hstopped, Bool.not_false, if_true,
    postureNotifications_append, SendPendingDisplayEvents, postureNotifications_sendDisplayEvents,
    List.append_nil]
  by_cases hmax : c2.max_synced_clipboard_length_ ≠ 0
  · simp only [if_pos hmax, hclip.1, hclip.2.1, hsupports, if_true, List.nil_append,
      SendDeviceStateNotification, hclip.2.2.1, hclip.2.2.2, hstate, hprev]
    split <;> rfl
  · simp only [if_neg hmax, hsupports, if_true, SendDeviceStateNotification, hstate, hprev,
      postureNotifications, List.nil_append]
    split <;> rfl

theorem SendDueNotifications_after_Initialize_witness :
    postureNotifications (SendDueNotifications
      (Initialize Controller.initial true 7 (deviceStateMarker ++ deviceStateMarker) 2).1
        [0x61]).2 = if (2 : Int) ≠ -1 then [2] else [] :=
  SendDueNotifications_after_Initialize Controller.initial true 7
    (deviceStateMarker ++ deviceStateMarker) [0x61] 2 rfl rfl (by decide)

/-! ## The code point count and the length check -/

set_option maxRecDepth 4096 in
theorem continuation_byte_iff :
    ∀ ch, ch < 256 → (ch &&& 0xC0 ≠ 0x80 ↔ IsContinuationByte ch = false) := by
  decide

theorem Utf8CharacterCount_eq_filter (str : List Nat) (hbytes : ∀ ch ∈ str, ch < 256) :
    Utf8CharacterCount str = ((str.filter (fun ch => !IsContinuationByte ch)).length : Int) := by
  induction str with
  | nil => rfl
  | cons ch rest ih =>
    have hrest := ih (fun x hx => hbytes x (List.mem_cons_of_mem _ hx))
    have hch := continuation_byte_iff ch (hbytes ch (List.mem_cons_self _ _))
    have hsplit : Utf8CharacterCount (ch :: rest) =
        Utf8CharacterCount [ch] + Utf8CharacterCount rest :=
      Utf8CharacterCount_append [ch] rest
    rw [hsplit, hrest]
    by_cases hc : ch &&& 0xC0 ≠ 0x80
    · have hfalse := hch.1 hc
      simp [Utf8CharacterCount, hc, List.filter_cons, hfalse]
      omega
    · have htrue : IsContinuationByte ch = true := by
        cases h : IsContinuationByte ch
        · exact absurd (hch.2 h) hc
        · rfl
      simp [Utf8CharacterCount, hc, List.filter_cons, htrue]

/-- C24: for every sequence of Unicode code points (values up to U+10FFFF),
`Utf8CharacterCount` of its UTF-8 encoding is the number of code points of the sequence; and on
every byte string the function returns the number of bytes that are not continuation bytes
(10xxxxxx, that is 0x80 to 0xBF). -/
theorem Utf8CharacterCount_counts_code_points (cps str : List Nat)
    (hcps : ∀ cp ∈ cps, cp < 0x110000) (hbytes : ∀ ch ∈ str, ch < 256) :
    Utf8CharacterCount (utf8Encode cps) = (cps.length : Int) ∧
    Utf8CharacterCount str = ((str.filter (fun ch => !IsContinuationByte ch)).length : Int) := by
  refine ⟨?_, Utf8CharacterCount_eq_filter str hbytes⟩
  clear hbytes
  induction cps with
  | nil => rfl
  | cons cp rest ih =>
    rw [utf8Encode, Utf8CharacterCount_append,
      Utf8CharacterCount_utf8EncodeCodePoint cp (hcps cp (List.mem_cons_self _ _)),
      ih (fun x hx => hcps x (List.mem_cons_of_mem _ hx))]
    simp only [List.length_cons, Nat.cast_add, Nat.cast_one]
    omega

theorem Utf8CharacterCount_counts_code_points_witness :
    Utf8CharacterCount (utf8Encode [0x41, 0xE9, 0x20AC, 0x1F600]) = (4 : Nat) ∧
    Utf8CharacterCount [0x41, 0xC3, 0xA9, 0xE2, 0x82, 0xAC] =
      (([0x41, 0xC3, 0xA9, 0xE2, 0x82, 0xAC].filter
        (fun ch => !IsContinuationByte ch)).length : Int) :=
  Utf8CharacterCount_counts_code_points [0x41, 0xE9, 0x20AC, 0x1F600]
    [0x41, 0xC3, 0xA9, 0xE2, 0x82, 0xAC] (by decide) (by decide)

/-- C25: for every text that is the UTF-8 encoding of Unicode scalar values and every negotiated
max length L with 0 ≤ L and 4 * L representable as an `int`, a byte length above 4 * L implies
a code point count above L, so `SendClipboardChangedNotification` with its two-stage check has
the same outcome (state and collaborator calls) as the variant whose only length test is
"code point count > L". -/
theorem SendClipboardChangedNotification_eq_single_test (c : Controller) (cps : List Nat)
    (hwf : ∀ cp ∈ cps, IsScalarValue cp)
    (hnonneg : 0 ≤ c.max_synced_clipboard_length_)
    (hmax : IsInt32 (c.max_synced_clipboard_length_ * 4)) :
    ((utf8Encode cps).length >
        toSizeT (wrapInt32 (c.max_synced_clipboard_length_ * UTF8_MAX_BYTES_PER_CHARACTER)) →
      Utf8CharacterCount (utf8Encode cps) > c.max_synced_clipboard_length_) ∧
    SendClipboardChangedNotification c (utf8Encode cps) =
      SendClipboardChangedNotificationSingleTest c (utf8Encode cps) := by
  have hcount := Utf8CharacterCount_utf8Encode cps hwf
  have hlen := length_utf8Encode cps
  unfold IsInt32 at hmax
  have himp : (utf8Encode cps).length >
        toSizeT (wrapInt32 (c.max_synced_clipboard_length_ * UTF8_MAX_BYTES_PER_CHARACTER)) →
      Utf8CharacterCount (utf8Encode cps) > c.max_synced_clipboard_length_ := by
    intro h
    rw [hcount]
    unfold toSizeT wrapInt32 UTF8_MAX_BYTES_PER_CHARACTER at h
    omega
  refine ⟨himp, ?_⟩
  have hiff : ((utf8Encode cps).length >
        toSizeT (wrapInt32 (c.max_synced_clipboard_length_ * UTF8_MAX_BYTES_PER_CHARACTER)) ∨
      Utf8CharacterCount (utf8Encode cps) > c.max_synced_clipboard_length_) ↔
      Utf8CharacterCount (utf8Encode cps) > c.max_synced_clipboard_length_ :=
    ⟨fun h => h.elim himp id, Or.inr⟩
  simp only [SendClipboardChangedNotification, SendClipboardChangedNotificationSingleTest, hiff]

theorem SendClipboardChangedNotification_eq_single_test_witness :
    ((utf8Encode [0x61, 0x20AC, 0x1F600]).length >
        toSizeT (wrapInt32 ((1 : Int) * UTF8_MAX_BYTES_PER_CHARACTER)) →
      Utf8CharacterCount (utf8Encode [0x61, 0x20AC, 0x1F600]) > 1) ∧
    SendClipboardChangedNotification
        { Controller.initial with clipboard_changed_ := true, max_synced_clipboard_length_ := 1 }
        (utf8Encode [0x61, 0x20AC, 0x1F600]) =
      SendClipboardChangedNotificationSingleTest
        { Controller.initial with clipboard_changed_ := true, max_synced_clipboard_length_ := 1 }
        (utf8Encode [0x61, 0x20AC, 0x1F600]) :=
  SendClipboardChangedNotification_eq_single_test
    { Controller.initial with clipboard_changed_ := true, max_synced_clipboard_length_ := 1 }
    [0x61, 0x20AC, 0x1F600] (by decide) (by decide) (by decide)

/-! ## Subscriptions of the clipboard listener -/

theorem clipboardSubscriptions_append (a b : List Effect) :
    clipboardSubscriptions (a ++ b) = clipboardSubscriptions a + clipboardSubscriptions b := by
  induction a with
  | nil => simp [clipboardSubscriptions]
  | cons e rest ih =>
    have ih2 : clipboardSubscriptions (rest.append b) =
        clipboardSubscriptions rest + clipboardSubscriptions b := ih
    cases e with
    | AddClipboardListener => simp only [List.cons_append, clipboardSubscriptions, ih, ih2]; omega
    | RemoveClipboardListener =>
      simp only [List.cons_append, clipboardSubscriptions, ih, ih2]; omega
    | _ => simp only [List.cons_append, clipboardSubscriptions, ih, ih2]

/-- As long as no `StartClipboardSync` command carries the max length 0, the subscribe and
unsubscribe calls are balanced: the listener is subscribed once while the negotiated max length
is non-zero and not at all while it is zero. -/
theorem clipboardSubscriptions_balanced (ops : List ControllerOp) :
    ∀ c : Controller, (∀ op ∈ ops, IsClipboardSyncCommandWithLength op = true) →
      expectedSubscriptions c + clipboardSubscriptions (runOps c ops).2 =
        expectedSubscriptions (runOps c ops).1 := by
  induction ops with
  | nil =>
    intro c _
    simp [runOps, clipboardSubscriptions]
  | cons op rest ih =>
    intro c hops
    have hop := hops op (List.mem_cons_self _ _)
    have hrest := ih (applyOp c op).1 (fun x hx => hops x (List.mem_cons_of_mem _ hx))
    simp only [runOps, clipboardSubscriptions_append]
    rw [← hrest]
    have hstep : expectedSubscriptions c + clipboardSubscriptions (applyOp c op).2 =
        expectedSubscriptions (applyOp c op).1 := by
      cases op with
      | StartClipboardSync message =>
        have hlen : message.max_synced_length ≠ 0 := by
          simpa [IsClipboardSyncCommandWithLength] using hop
        simp only [applyOp, StartClipboardSync, expectedSubscriptions]
        by_cases htext : message.text ≠ c.last_clipboard_text_
        · by_cases hmax : c.max_synced_clipboard_length_ = 0
          · simp [htext, hmax, hlen, clipboardSubscriptions]
          · simp [htext, hmax, hlen, clipboardSubscriptions]
        · by_cases hmax : c.max_synced_clipboard_length_ = 0
          · simp [htext, hmax, hlen, clipboardSubscriptions]
          · simp [htext, hmax, hlen, clipboardSubscriptions]
      | StopClipboardSync =>
        simp only [applyOp, StopClipboardSync, expectedSubscriptions]
        by_cases hmax : c.max_synced_clipboard_length_ = 0
        · simp [hmax, clipboardSubscriptions]
        · simp [hmax, clipboardSubscriptions]
      | _ => simp [IsClipboardSyncCommandWithLength] at hop
    omega

/-- C26 (the code at the failing input): from the initial session state, a `StartClipboardSync`
command with max length 0 subscribes the clipboard listener although the negotiated max length
stays 0; a following `StopClipboardSync` does not unsubscribe it, and a following
`StartClipboardSync` subscribes it a second time. -/
theorem StartClipboardSync_zero_max_length :
    (runOps Controller.initial
      [ControllerOp.StartClipboardSync { max_synced_length := 0, text := [] }]
      ).1.max_synced_clipboard_length_ = 0 ∧
    clipboardSubscriptions (runOps Controller.initial
      [ControllerOp.StartClipboardSync { max_synced_length := 0, text := [] }]).2 = 1 ∧
    clipboardSubscriptions (runOps Controller.initial
      [ControllerOp.StartClipboardSync { max_synced_length := 0, text := [] },
        ControllerOp.StopClipboardSync]).2 = 1 ∧
    (runOps Controller.initial
      [ControllerOp.StartClipboardSync { max_synced_length := 0, text := [] },
        ControllerOp.StartClipboardSync { max_synced_length := 5, text := [] }]
      ).1.max_synced_clipboard_length_ = 5 ∧
    clipboardSubscriptions (runOps Controller.initial
      [ControllerOp.StartClipboardSync { max_synced_length := 0, text := [] },
        ControllerOp.StartClipboardSync { max_synced_length := 5, text := [] }]).2 = 2 := by
  decide

/-! ## Pointer counts of the injected events -/

theorem downLoop_pointer_count (size : Nat) :
    ∀ (n i : Nat) (s : MotionState), i ≤ size →
      (∀ e ∈ motionInjects s.effects, e.pointer_count ≤ size) →
      (∀ e ∈ motionInjects (downLoop size n i s).effects, e.pointer_count ≤ size) ∧
      (downLoop size n i s).event.pointer_count ≤ size := by
  intro n
  induction n with
  | zero =>
    intro i s hi hs
    exact ⟨hs, hi⟩
  | succ n ih =>
    intro i s hi hs
    rw [downLoop]
    simp only
    split
    · apply ih (i + 1) _ (by omega)
      intro e he
      simp only [InjectMotionEvent, motionInjects_append, motionInjects, List.mem_append,
        List.mem_singleton] at he
      rcases he with he | he
      · exact hs e he
      · subst he
        exact hi
    · exact ⟨hs, hi⟩

theorem upLoop_pointer_count (size : Nat) :
    ∀ (i : Nat) (s : MotionState), i ≤ s.event.pointer_count → s.event.pointer_count ≤ size →
      (∀ e ∈ motionInjects s.effects, e.pointer_count ≤ size) →
      (∀ e ∈ motionInjects (upLoop i s).effects, e.pointer_count ≤ size) ∧
      (upLoop i s).event.pointer_count ≤ size := by
  intro i
  induction i with
  | zero =>
    intro s _ hcount hs
    exact ⟨hs, hcount⟩
  | succ i ih =>
    intro s hi hcount hs
    rw [upLoop]
    split
    · apply ih _ (Nat.le_refl _) (by simp only; omega)
      intro e he
      simp only [InjectMotionEvent, motionInjects_append, motionInjects, List.mem_append,
        List.mem_singleton] at he
      rcases he with he | he
      · exact hs e he
      · subst he
        exact hcount
    · exact ⟨hs, hcount⟩

/-- Unless the message is a DOWN without action button and without pointers, every motion event
that `ProcessMotionEvent` injects carries a pointer count no greater than the number of pointers
of the message. -/
theorem ProcessMotionEvent_pointer_count (c : Controller) (now : Int)
    (display_info : DisplayInfo) (key_now : Int) (message : MotionEventMessage)
    (h : 1 ≤ message.pointers.length ∨ message.action ≠ AMOTION_EVENT_ACTION_DOWN ∨
      message.action_button ≠ 0) :
    ∀ e ∈ motionInjects (ProcessMotionEvent c now display_info key_now message).2,
      e.pointer_count ≤ message.pointers.length := by
  by_cases hvalid : display_info.IsValid = true
  · obtain ⟨-, -, e3, e4⟩ := stateBeforeInject_event c now display_info message
    rw [ProcessMotionEvent_valid c now display_info key_now message hvalid]
    simp only [motionInjects_afterInject]
    generalize stateBeforeInject c now display_info message = s at e3 e4
    have hnone : ∀ e ∈ motionInjects s.effects, e.pointer_count ≤ message.pointers.length := by
      rw [e4]
      intro e he
      cases he
    have hlast : ∀ t : MotionState,
        (∀ e ∈ motionInjects t.effects, e.pointer_count ≤ message.pointers.length) →
        t.event.pointer_count ≤ message.pointers.length →
        ∀ e ∈ motionInjects (InjectMotionEvent t).effects,
          e.pointer_count ≤ message.pointers.length := by
      intro t ht hcount e he
      simp only [InjectMotionEvent, motionInjects_append, motionInjects, List.mem_append,
        List.mem_singleton] at he
      rcases he with he | he
      · exact ht e he
      · subst he
        exact hcount
    simp only [injectEvents]
    apply hlast
    · split
      · split
        · exact hlast _ (by simpa using hnone) (by simp [e3])
        · rename_i hdown hbutton
          have hsize : 1 ≤ message.pointers.length := by
            rcases h with h | h | h
            · exact h
            · exact absurd hdown h
            · exact absurd h hbutton
          exact (downLoop_pointer_count _ _ 1 s hsize hnone).1
      · split
        · split
          · exact hlast _ (by simpa using hnone) (by simp [e3])
          · exact (upLoop_pointer_count _ _ s (Nat.le_refl _) (by omega) hnone).1
        · exact hnone
    · split
      · split
        · simp [InjectMotionEvent, e3]
        · rename_i hdown hbutton
          have hsize : 1 ≤ message.pointers.length := by
            rcases h with h | h | h
            · exact h
            · exact absurd hdown h
            · exact absurd h hbutton
          exact (downLoop_pointer_count _ _ 1 s hsize hnone).2
      · split
        · split
          · simp [InjectMotionEvent, e3]
          · exact (upLoop_pointer_count _ _ s (Nat.le_refl _) (by omega) hnone).2
        · omega
  · have hinvalid : display_info.IsValid = false := by
      cases hv : display_info.IsValid
      · rfl
      · exact absurd hv hvalid
    intro e he
    simp only [ProcessMotionEvent, hinvalid, Bool.not_false, if_true] at he
    rw [(updateStartTime_event _ message.action now).2.2.2] at he
    cases he

/-- C27 (the code at the failing input): for a DOWN message without action button and without
pointers, `ProcessMotionEvent` makes one inject call, and this call carries the pointer count 1
although the message has no pointer. -/
theorem ProcessMotionEvent_down_without_pointers :
    downWithoutPointers.pointers.length = 0 ∧
    injectedTransitions (ProcessMotionEvent Controller.initial 100
        { NaturalSize := { width := 1080, height := 1920 }, rotation := 0, IsValid := true,
          IsOn := true } 100 downWithoutPointers).2 =
      [(AMOTION_EVENT_ACTION_DOWN, 1)] := by
  decide

end screensharing
